import Mathlib

/-!
# Class-PQC: the three KEM demonstration programs

A shallow embedding of `alice_kem.cpp` (key generation), `bob_kem.cpp`
(encapsulation) and `alice2_kem.cpp` (decapsulation).

* A byte (`uint8_t`) is a `Fin 256`; a buffer is a list of bytes.
* Text written with `printf` is a list of characters.
* The file system, the allocator, the entropy source and the liboqs library
  are the fields of a `World`; each `main` is a function from the world it
  starts in to a `Result`: exit status, files afterwards, standard output,
  standard error and the trace of the library and file calls it made.
-/

namespace ClassPQC

/-! ## Bytes and text -/

/-- One `uint8_t`. -/
abbrev Byte := Fin 256

/-- A byte buffer. -/
abbrev Bytes := List Byte

/-- Text sent to a stream. -/
abbrev Text := List Char

/-- The sixteen digits `%X` prints, in order. -/
def upper_hex_digits : Text := "0123456789ABCDEF".toList

/-- One digit of `%X`: `0`..`9`, then `A`..`F`. -/
def hex_digit (n : Nat) : Char :=
  if n < 10 then Char.ofNat (48 + n) else Char.ofNat (55 + n)

/-- The text of `printf("%02X", b)` for a `uint8_t` argument: two digits, zero padded. -/
def fmt_02X (b : Byte) : Text :=
  [hex_digit (b.val / 16), hex_digit (b.val % 16)]

/-- The text of `printf("\n         ")`: a line break and nine spaces. -/
def line_break_indent : Text := "\n         ".toList

/-- The `for` loop of `print_hex`, `remaining = length - i` iterations from index `i`. -/
def print_hex_loop (data : Bytes) : Nat → Nat → Text
  | 0, _ => []
  | remaining + 1, i =>
    fmt_02X (data.getD i 0)
      ++ (if (i + 1) % 16 = 0 then line_break_indent else [])
      ++ print_hex_loop data remaining (i + 1)

/-- The function `print_hex(label, data, length)`: the text it sends to standard output. -/
def print_hex (label : Text) (data : Bytes) (length : Nat) : Text :=
  label ++ ": ".toList ++ print_hex_loop data length 0 ++ "\n".toList

/-- Whitespace that `print_hex` emits between digits. -/
def is_blank (c : Char) : Bool := c == ' ' || c == '\n'

/-- A text with its blanks and line breaks removed. -/
def strip_blanks (t : Text) : Text := t.filter (fun c => !is_blank c)

/-- The digits of a byte sequence: two uppercase hexadecimal digits per byte, in order. -/
def hex_digits_of (d : Bytes) : Text := d.flatMap fmt_02X

/-- The two digits of a byte as the claim words them: its high and its low half, each
taken from the sixteen uppercase hexadecimal digits. -/
def spec_hex_pair (b : Byte) : Text :=
  ["0123456789ABCDEF".toList.getD (b.val / 16) '0',
   "0123456789ABCDEF".toList.getD (b.val % 16) '0']

/-- The layout in the words of the claim, written without any part of `print_hex`: every
byte as two digits, after every 16th byte one line break followed by nine spaces, and a
final line break. -/
def spec_hex_layout (d : Bytes) : Text :=
  (d.enum.flatMap fun p =>
      spec_hex_pair p.2 ++ (if (p.1 + 1) % 16 = 0 then '\n' :: List.replicate 9 ' ' else []))
    ++ ['\n']

/-- What `print_hex` emits after the `label: ` prefix when `length` is the length of the
data. -/
def hex_dump_body (d : Bytes) : Text := print_hex_loop d d.length 0 ++ "\n".toList

/-- The value of an uppercase hexadecimal digit. -/
def hex_value (c : Char) : Nat :=
  if c.toNat < 58 then c.toNat - 48 else c.toNat - 55

/-! ## The world around the programs -/

/-- Modelled from the spec: the `OQS_KEM` object of liboqs, which is not part of the
sources. It "binds the four byte-lengths and the three operations": `keypair` and
`encaps` draw on entropy (the first argument) and all three may not return
`OQS_SUCCESS` (`none`). The value returned is what the call stores in its
output buffers; a call that does not return success is taken to leave them as they
were. -/
structure Kem where
  length_public_key : Nat
  length_secret_key : Nat
  length_ciphertext : Nat
  length_shared_secret : Nat
  keypair : Nat → Option (Bytes × Bytes)
  encaps : Nat → Bytes → Option (Bytes × Bytes)
  decaps : Bytes → Bytes → Option Bytes

/-- Modelled from the spec: the identifier macro `OQS_KEM_alg_ml_kem_512` of the liboqs
header, which is not part of the sources; the spec speaks of "two fixed reference
identifiers corresponding to two different parameter sets". -/
def OQS_KEM_alg_ml_kem_512 : String := "ML-KEM-512"

/-- Modelled from the spec: the identifier macro `OQS_KEM_alg_ml_kem_1024` of the liboqs
header, the second of the "two fixed reference identifiers". -/
def OQS_KEM_alg_ml_kem_1024 : String := "ML-KEM-1024"

/-- The named binary files: a name has a content or cannot be opened for reading. -/
abbrev Store := String → Option Bytes

/-- Everything a run depends on besides the program text. -/
structure World where
  /-- The function `OQS_KEM_new`: `none` is the null pointer. -/
  kem_new : String → Option Kem
  /-- The files on disk. -/
  files : Store
  /-- Whether the n-th `malloc` of the run returns the null pointer. -/
  malloc_fails : Nat → Bool
  /-- The indeterminate content of the n-th allocated block. -/
  heap : Nat → Nat → Byte
  /-- Whether `fopen(name, "wb")` returns the null pointer. -/
  wb_denied : String → Bool
  /-- The entropy the primitive of this run consumes. -/
  coins : Nat
  /-- The text of `strerror(errno)` that `perror` appends. -/
  strerror : Text

/-- How a run ends: `main` returns or `exit` is called with one of the two codes, or the
program passes a null buffer to the library, which the C standard leaves undefined. -/
inductive Status
  | EXIT_SUCCESS
  | EXIT_FAILURE
  | undefined_behaviour
  deriving DecidableEq, Repr

/-- The mode string of `fopen`. -/
inductive Mode
  | rb
  | wb
  deriving DecidableEq, Repr

/-- The library and file calls of a run, in order. A `free` records what the buffer holds
when it is released (`none` for the null pointer). -/
inductive Event
  | fopen (filename : String) (mode : Mode) (opened : Bool)
  | keypair
  | encaps (public_key : Bytes)
  | decaps (ciphertext secret_key : Bytes)
  | free (buffer : String) (content : Option Bytes)
  | kem_free
  deriving DecidableEq, Repr

/-- What a run leaves behind. -/
structure Result where
  status : Status
  files : Store
  out : Text
  err : Text
  trace : List Event

/-- The indeterminate content of the block the n-th `malloc(size)` returns. -/
def fresh_block (w : World) (call size : Nat) : Bytes :=
  (List.range size).map (w.heap call)

/-- The n-th `malloc(size)` of a run: the null pointer or a block of `size` bytes of
indeterminate content. -/
def malloc (w : World) (call size : Nat) : Option Bytes :=
  if w.malloc_fails call then none else some (fresh_block w call size)

/-- A library call storing `data` at the start of an output buffer; the buffer keeps its
size. -/
def fill (buffer data : Bytes) : Bytes :=
  (data ++ buffer.drop data.length).take buffer.length

/-- The call `fread(buffer, 1, length, file)`: at most `length` bytes of the file replace
the start of the buffer; its return value is discarded by the caller. -/
def fread (buffer : Bytes) (length : Nat) (content : Bytes) : Bytes :=
  content.take length ++ buffer.drop (min length content.length)

/-- The function `load_from_file`: `none` when `fopen` fails and the process exits,
otherwise the buffer after the read. No length is compared. -/
def load_from_file (files : Store) (filename : String) (buffer : Bytes) (length : Nat) :
    Option Bytes :=
  match files filename with
  | none => none
  | some content => some (fread buffer length content)

/-- The function `write_to_file`: `none` when `fopen` fails and the process exits,
otherwise the files after `length` bytes of `data` replaced the named file. -/
def write_to_file (w : World) (files : Store) (filename : String) (data : Bytes)
    (length : Nat) : Option Store :=
  if w.wb_denied filename then none
  else some fun n => if n = filename then some (data.take length) else files n

/-- The text of `perror("Error opening file")`. -/
def perror_opening (w : World) : Text :=
  "Error opening file: ".toList ++ w.strerror ++ "\n".toList

/-! ## alice_kem.cpp: key generation -/

/-- The two lines every run of `alice_kem` prints first. -/
def alice_kem_banner : Text :=
  "=== Alice: Key Generation ===\n".toList
    ++ "[INFO] Using algorithm: ".toList ++ OQS_KEM_alg_ml_kem_512.toList ++ "\n".toList

/-- What `alice_kem` prints in Block 7, after both files are written. -/
def alice_kem_report (kem : Kem) (public_key secret_key : Bytes) : Text :=
  "[INFO] Generated keys:\n".toList
    ++ print_hex "Public Key".toList public_key kem.length_public_key
    ++ print_hex "Secret Key".toList secret_key kem.length_secret_key
    ++ "[INFO] Generated files:\n".toList
    ++ "  - public_key.bin\n".toList
    ++ "  - secret_key.bin\n".toList

/-- The function `main` of `alice_kem.cpp`. The two allocations are not tested: with a
null buffer the call of `OQS_KEM_keypair` is undefined. -/
def alice_kem_main (w : World) : Result :=
  match w.kem_new OQS_KEM_alg_ml_kem_512 with
  | none =>
    { status := .EXIT_FAILURE, files := w.files, out := alice_kem_banner,
      err := "Error initializing KEM.\n".toList, trace := [] }
  | some kem =>
    match malloc w 0 kem.length_public_key, malloc w 1 kem.length_secret_key with
    | some public_key, some secret_key =>
      match kem.keypair w.coins with
      | none =>
        { status := .EXIT_FAILURE, files := w.files, out := alice_kem_banner,
          err := "Error generating key pair.\n".toList, trace := [.keypair] }
      | some (pk, sk) =>
        let public_key := fill public_key pk
        let secret_key := fill secret_key sk
        match write_to_file w w.files "public_key.bin" public_key kem.length_public_key with
        | none =>
          { status := .EXIT_FAILURE, files := w.files, out := alice_kem_banner,
            err := perror_opening w,
            trace := [.keypair, .fopen "public_key.bin" .wb false] }
        | some files₁ =>
          match write_to_file w files₁ "secret_key.bin" secret_key kem.length_secret_key with
          | none =>
            { status := .EXIT_FAILURE, files := files₁, out := alice_kem_banner,
              err := perror_opening w,
              trace := [.keypair, .fopen "public_key.bin" .wb true,
                        .fopen "secret_key.bin" .wb false] }
          | some files₂ =>
            { status := .EXIT_SUCCESS, files := files₂,
              out := alice_kem_banner ++ alice_kem_report kem public_key secret_key,
              err := [],
              trace := [.keypair, .fopen "public_key.bin" .wb true,
                        .fopen "secret_key.bin" .wb true,
                        .free "public_key" (some public_key),
                        .free "secret_key" (some secret_key), .kem_free] }
    | _, _ =>
      { status := .undefined_behaviour, files := w.files, out := alice_kem_banner,
        err := [], trace := [.keypair] }

/-! ## bob_kem.cpp: encapsulation -/

/-- The two lines every run of `bob_kem` prints first. -/
def bob_kem_banner : Text :=
  "=== Bob: Key Encapsulation ===\n".toList
    ++ "[INFO] Using algorithm: ".toList ++ OQS_KEM_alg_ml_kem_1024.toList ++ "\n".toList

/-- What `bob_kem` prints in Blocks 8 and 9. -/
def bob_kem_report (kem : Kem) (shared_secret ciphertext : Bytes) : Text :=
  "[INFO] Encapsulated ciphertext saved to 'ciphertext.bin'.\n".toList
    ++ "[INFO] Key encapsulation successful:\n".toList
    ++ print_hex "Plaintext shared secret".toList shared_secret kem.length_shared_secret
    ++ print_hex "Encapsulated ciphertext".toList ciphertext kem.length_ciphertext

/-- The function `main` of `bob_kem.cpp`. -/
def bob_kem_main (w : World) : Result :=
  match w.kem_new OQS_KEM_alg_ml_kem_1024 with
  | none =>
    { status := .EXIT_FAILURE, files := w.files, out := bob_kem_banner,
      err := "Error initializing KEM.\n".toList, trace := [] }
  | some kem =>
    let public_key := malloc w 0 kem.length_public_key
    let ciphertext := malloc w 1 kem.length_ciphertext
    let shared_secret := malloc w 2 kem.length_shared_secret
    match public_key, ciphertext, shared_secret with
    | some pkb, some ctb, some ssb =>
      match load_from_file w.files "public_key_1024.bin" pkb kem.length_public_key with
      | none =>
        { status := .EXIT_FAILURE, files := w.files, out := bob_kem_banner,
          err := perror_opening w,
          trace := [.fopen "public_key_1024.bin" .rb false] }
      | some pkb =>
        let out₁ := bob_kem_banner ++ "[INFO] Loaded Alice's public key.\n".toList
        match kem.encaps w.coins pkb with
        | none =>
          { status := .EXIT_FAILURE, files := w.files, out := out₁,
            err := "Error during encapsulation.\n".toList,
            trace := [.fopen "public_key_1024.bin" .rb true, .encaps pkb,
                      .free "public_key" (some pkb), .free "ciphertext" (some ctb),
                      .free "shared_secret" (some ssb), .kem_free] }
        | some (ct, ss) =>
          let ctb := fill ctb ct
          let ssb := fill ssb ss
          match write_to_file w w.files "ciphertext.bin" ctb kem.length_ciphertext with
          | none =>
            { status := .EXIT_FAILURE, files := w.files, out := out₁,
              err := perror_opening w,
              trace := [.fopen "public_key_1024.bin" .rb true, .encaps pkb,
                        .fopen "ciphertext.bin" .wb false] }
          | some files₁ =>
            { status := .EXIT_SUCCESS, files := files₁,
              out := out₁ ++ bob_kem_report kem ssb ctb,
              err := [],
              trace := [.fopen "public_key_1024.bin" .rb true, .encaps pkb,
                        .fopen "ciphertext.bin" .wb true,
                        .free "public_key" (some pkb), .free "ciphertext" (some ctb),
                        .free "shared_secret" (some ssb), .kem_free] }
    | _, _, _ =>
      { status := .EXIT_FAILURE, files := w.files, out := bob_kem_banner,
        err := "Error allocating memory.\n".toList,
        trace := [.kem_free, .free "public_key" public_key, .free "ciphertext" ciphertext,
                  .free "shared_secret" shared_secret] }

/-! ## alice2_kem.cpp: decapsulation -/

/-- The two lines every run of `alice2_kem` prints first. -/
def alice2_kem_banner : Text :=
  "=== Alice: Key Decapsulation ===\n".toList
    ++ "[INFO] Using algorithm: ".toList ++ OQS_KEM_alg_ml_kem_1024.toList ++ "\n".toList

/-- What `alice2_kem` prints in Block 7. -/
def alice2_kem_report (kem : Kem) (shared_secret : Bytes) : Text :=
  "[INFO] Key decapsulation successful:\n".toList
    ++ print_hex "Recovered shared secret".toList shared_secret kem.length_shared_secret

/-- The function `main` of `alice2_kem.cpp`. -/
def alice2_kem_main (w : World) : Result :=
  match w.kem_new OQS_KEM_alg_ml_kem_1024 with
  | none =>
    { status := .EXIT_FAILURE, files := w.files, out := alice2_kem_banner,
      err := "Error initializing KEM.\n".toList, trace := [] }
  | some kem =>
    let secret_key := malloc w 0 kem.length_secret_key
    let ciphertext := malloc w 1 kem.length_ciphertext
    let shared_secret := malloc w 2 kem.length_shared_secret
    match secret_key, ciphertext, shared_secret with
    | some skb, some ctb, some ssb =>
      match load_from_file w.files "secret_key_1024.bin" skb kem.length_secret_key with
      | none =>
        { status := .EXIT_FAILURE, files := w.files, out := alice2_kem_banner,
          err := perror_opening w,
          trace := [.fopen "secret_key_1024.bin" .rb false] }
      | some skb =>
        match load_from_file w.files "ciphertext.bin" ctb kem.length_ciphertext with
        | none =>
          { status := .EXIT_FAILURE, files := w.files, out := alice2_kem_banner,
            err := perror_opening w,
            trace := [.fopen "secret_key_1024.bin" .rb true,
                      .fopen "ciphertext.bin" .rb false] }
        | some ctb =>
          let out₁ := alice2_kem_banner
            ++ "[INFO] Loaded Alice's secret key and Bob's ciphertext.\n".toList
          match kem.decaps ctb skb with
          | none =>
            { status := .EXIT_FAILURE, files := w.files, out := out₁,
              err := "Error during decapsulation.\n".toList,
              trace := [.fopen "secret_key_1024.bin" .rb true,
                        .fopen "ciphertext.bin" .rb true, .decaps ctb skb,
                        .free "secret_key" (some skb), .free "ciphertext" (some ctb),
                        .free "shared_secret" (some ssb), .kem_free] }
          | some ss =>
            let ssb := fill ssb ss
            { status := .EXIT_SUCCESS, files := w.files,
              out := out₁ ++ alice2_kem_report kem ssb,
              err := [],
              trace := [.fopen "secret_key_1024.bin" .rb true,
                        .fopen "ciphertext.bin" .rb true, .decaps ctb skb,
                        .free "secret_key" (some skb), .free "ciphertext" (some ctb),
                        .free "shared_secret" (some ssb), .kem_free] }
    | _, _, _ =>
      { status := .EXIT_FAILURE, files := w.files, out := alice2_kem_banner,
        err := "Error allocating memory.\n".toList,
        trace := [.kem_free, .free "secret_key" secret_key, .free "ciphertext" ciphertext,
                  .free "shared_secret" shared_secret] }

/-! ## Assumptions on the world that claims speak of -/

/-- The outputs of the three primitives have the lengths the context advertises. -/
def Kem.lengths_ok (k : Kem) : Prop :=
  (∀ r pk sk, k.keypair r = some (pk, sk) →
      pk.length = k.length_public_key ∧ sk.length = k.length_secret_key)
  ∧ (∀ c pk ct ss, k.encaps c pk = some (ct, ss) →
      ct.length = k.length_ciphertext ∧ ss.length = k.length_shared_secret)
  ∧ (∀ ct sk ss, k.decaps ct sk = some ss → ss.length = k.length_shared_secret)

/-- Correct primitives: under a public key that `keypair` returned, `encaps` succeeds, and
`decaps` with the matching secret key returns the shared secret of `encaps`. -/
def Kem.correct (k : Kem) : Prop :=
  ∀ r pk sk, k.keypair r = some (pk, sk) →
    ∀ c, ∃ ct ss, k.encaps c pk = some (ct, ss) ∧ k.decaps ct sk = some ss

/-- The block of the n-th `malloc(length)` after `fread` read a file of this content into
it: the content when it has the expected length. -/
def buffer_after_read (w : World) (call length : Nat) (content : Bytes) : Bytes :=
  fread (fresh_block w call length) length content

/-- The block of the n-th `malloc(length)` after a primitive stored `data` in it: `data`
itself when it has the advertised length. -/
def buffer_after_store (w : World) (call length : Nat) (data : Bytes) : Bytes :=
  fill (fresh_block w call length) data

/-- None of the (at most three) allocations of a run returns the null pointer. -/
def no_malloc_failure (w : World) : Prop := ∀ n, n < 3 → w.malloc_fails n = false

/-! ## Concrete worlds -/

/-- A small stand-in for a KEM: public key `[r, r+1]`, secret key `[r, r+2]`, ciphertext
`[c, r]` and shared secret `[r + c]`, where `r` and `c` are the entropy of key
generation and of encapsulation. -/
def toy_kem : Kem where
  length_public_key := 2
  length_secret_key := 2
  length_ciphertext := 2
  length_shared_secret := 1
  keypair := fun r => some ([Fin.ofNat r, Fin.ofNat r + 1], [Fin.ofNat r, Fin.ofNat r + 2])
  encaps := fun c pk =>
    match pk with
    | [a, _] => some ([Fin.ofNat c, a], [a + Fin.ofNat c])
    | _ => none
  decaps := fun ct sk =>
    match ct, sk with
    | [c, _], [a, _] => some [a + c]
    | _, _ => none

/-- A world with no file, no fault, and the stand-in KEM under both identifiers. -/
def toy_world : World where
  kem_new := fun alg =>
    if alg = OQS_KEM_alg_ml_kem_512 ∨ alg = OQS_KEM_alg_ml_kem_1024 then some toy_kem else none
  files := fun _ => none
  malloc_fails := fun _ => false
  heap := fun _ _ => 170
  wb_denied := fun _ => false
  coins := 5
  strerror := "No such file or directory".toList

/-- The files `public_key_1024.bin` and `secret_key_1024.bin` holding the stand-in key
pair of entropy 3. -/
def toy_key_files : Store := fun n =>
  if n = "public_key_1024.bin" then some [3, 4]
  else if n = "secret_key_1024.bin" then some [3, 5]
  else none

/-- The world in which `bob_kem` finds the stand-in key pair. -/
def toy_world_bob : World := { toy_world with files := toy_key_files }

/-- The world in which `alice2_kem` runs after `bob_kem` ran in `toy_world_bob`. -/
def toy_world_alice2 : World :=
  { toy_world with files := (bob_kem_main toy_world_bob).files, coins := 9 }

/-- The world `bob_kem` finds after `alice_kem` ran in the world without files. -/
def toy_world_after_keygen : World :=
  { toy_world with files := (alice_kem_main toy_world).files }

/-- The world `alice2_kem` finds after `bob_kem` ran in `toy_world_after_keygen`. -/
def toy_world_after_encaps : World :=
  { toy_world with files := (bob_kem_main toy_world_after_keygen).files }

/-- The world without files in which the first `malloc` returns the null pointer. -/
def toy_world_malloc_null : World :=
  { toy_world with malloc_fails := fun n => decide (n = 0) }

/-- A world whose `public_key_1024.bin` holds one byte where two are expected. -/
def toy_world_short_key : World :=
  { toy_world with files := fun n => if n = "public_key_1024.bin" then some [3] else none }

/-- A world in which `OQS_KEM_new` knows no algorithm. -/
def toy_world_no_kem : World :=
  { toy_world_bob with kem_new := fun _ => none }

/-- The stand-in KEM with an encapsulation that never succeeds. -/
def toy_kem_encaps_fails : Kem := { toy_kem with encaps := fun _ _ => none }

/-- A world with the key files in which encapsulation does not return success. -/
def toy_world_encaps_fails : World :=
  { toy_world_bob with kem_new := fun _ => some toy_kem_encaps_fails }

/-- A world with the key files in which the third `malloc` returns the null pointer. -/
def toy_world_bob_malloc_null : World :=
  { toy_world_bob with malloc_fails := fun n => decide (n = 2) }

/-- The key files with another content under `secret_key_1024.bin`. -/
def toy_key_files_other_secret : Store := fun n =>
  if n = "secret_key_1024.bin" then some [77, 78] else toy_key_files n

/-- The stand-in KEM with another secret key for the same public key. -/
def toy_kem_other_secret : Kem :=
  { toy_kem with
    keypair := fun r => some ([Fin.ofNat r, Fin.ofNat r + 1], [Fin.ofNat r, Fin.ofNat r + 3]) }

/-- The world without files whose key generation returns the other secret key. -/
def toy_world_other_secret : World :=
  { toy_world with kem_new := fun _ => some toy_kem_other_secret }

/-- The world without files in which `secret_key.bin` cannot be opened for writing. -/
def toy_world_secret_denied : World :=
  { toy_world with wb_denied := fun n => decide (n = "secret_key.bin") }

/-- The stand-in KEM with a key generation that never succeeds. -/
def toy_kem_keypair_fails : Kem := { toy_kem with keypair := fun _ => none }

/-- The world without files in which key generation does not return success. -/
def toy_world_keypair_fails : World :=
  { toy_world with kem_new := fun _ => some toy_kem_keypair_fails }

/-- The stand-in KEM with a decapsulation that never succeeds. -/
def toy_kem_decaps_fails : Kem := { toy_kem with decaps := fun _ _ => none }

/-- The world after `bob_kem` in which decapsulation does not return success. -/
def toy_world_decaps_fails : World :=
  { toy_world_alice2 with kem_new := fun _ => some toy_kem_decaps_fails }

/-- A world with the key files in which `ciphertext.bin` cannot be opened for writing. -/
def toy_world_ciphertext_denied : World :=
  { toy_world_bob with wb_denied := fun n => decide (n = "ciphertext.bin") }

/-! ## Buffers -/

theorem fresh_block_length (w : World) (call size : Nat) :
    (fresh_block w call size).length = size := by
  simp [fresh_block]

theorem malloc_of_ok (w : World) (call size : Nat) (h : w.malloc_fails call = false) :
    malloc w call size = some (fresh_block w call size) := by
  simp [malloc, h]

theorem malloc_of_no_failure (w : World) (h : no_malloc_failure w) (call : Nat)
    (hcall : call < 3) (size : Nat) : malloc w call size = some (fresh_block w call size) :=
  malloc_of_ok w call size (h call hcall)

theorem malloc_of_fail (w : World) (call size : Nat) (h : w.malloc_fails call = true) :
    malloc w call size = none := by
  simp [malloc, h]

theorem fread_exact (buffer content : Bytes) (length : Nat) (hb : buffer.length = length)
    (hc : content.length = length) : fread buffer length content = content := by
  subst hc
  simp [fread, hb]

theorem fill_exact (buffer data : Bytes) (h : data.length = buffer.length) :
    fill buffer data = data := by
  simp [fill, h]

theorem write_to_file_ok (w : World) (files : Store) (name : String) (data : Bytes)
    (length : Nat) (h : w.wb_denied name = false) :
    write_to_file w files name data length
      = some fun n => if n = name then some (data.take length) else files n := by
  simp [write_to_file, h]

theorem write_to_file_denied (w : World) (files : Store) (name : String) (data : Bytes)
    (length : Nat) (h : w.wb_denied name = true) :
    write_to_file w files name data length = none := by
  simp [write_to_file, h]

/-! ## Run equations -/

/-- The run of `bob_kem` when every stage succeeds. -/
theorem bob_kem_main_success (w : World) (kem : Kem) (content ct ss : Bytes)
    (hnew : w.kem_new OQS_KEM_alg_ml_kem_1024 = some kem)
    (halloc : no_malloc_failure w)
    (hfile : w.files "public_key_1024.bin" = some content)
    (henc : kem.encaps w.coins
      (fread (fresh_block w 0 kem.length_public_key) kem.length_public_key content)
        = some (ct, ss))
    (hwb : w.wb_denied "ciphertext.bin" = false) :
    bob_kem_main w =
      { status := .EXIT_SUCCESS,
        files := fun n =>
          if n = "ciphertext.bin" then
            some ((fill (fresh_block w 1 kem.length_ciphertext) ct).take kem.length_ciphertext)
          else w.files n,
        out := bob_kem_banner ++ "[INFO] Loaded Alice's public key.\n".toList
          ++ bob_kem_report kem (fill (fresh_block w 2 kem.length_shared_secret) ss)
              (fill (fresh_block w 1 kem.length_ciphertext) ct),
        err := [],
        trace :=
          [.fopen "public_key_1024.bin" .rb true,
           .encaps (fread (fresh_block w 0 kem.length_public_key) kem.length_public_key content),
           .fopen "ciphertext.bin" .wb true,
           .free "public_key"
             (some (fread (fresh_block w 0 kem.length_public_key) kem.length_public_key content)),
           .free "ciphertext" (some (fill (fresh_block w 1 kem.length_ciphertext) ct)),
           .free "shared_secret" (some (fill (fresh_block w 2 kem.length_shared_secret) ss)),
           .kem_free] } := by
  simp [bob_kem_main, hnew, malloc_of_ok, halloc 0, halloc 1, halloc 2, load_from_file, hfile,
    henc, write_to_file, hwb]

/-- The run of `alice2_kem` when every stage succeeds. -/
theorem alice2_kem_main_success (w : World) (kem : Kem) (sk_content ct_content ss : Bytes)
    (hnew : w.kem_new OQS_KEM_alg_ml_kem_1024 = some kem)
    (halloc : no_malloc_failure w)
    (hsk : w.files "secret_key_1024.bin" = some sk_content)
    (hct : w.files "ciphertext.bin" = some ct_content)
    (hdec : kem.decaps
      (fread (fresh_block w 1 kem.length_ciphertext) kem.length_ciphertext ct_content)
      (fread (fresh_block w 0 kem.length_secret_key) kem.length_secret_key sk_content)
        = some ss) :
    alice2_kem_main w =
      { status := .EXIT_SUCCESS,
        files := w.files,
        out := alice2_kem_banner
          ++ "[INFO] Loaded Alice's secret key and Bob's ciphertext.\n".toList
          ++ alice2_kem_report kem (fill (fresh_block w 2 kem.length_shared_secret) ss),
        err := [],
        trace :=
          [.fopen "secret_key_1024.bin" .rb true, .fopen "ciphertext.bin" .rb true,
           .decaps
             (fread (fresh_block w 1 kem.length_ciphertext) kem.length_ciphertext ct_content)
             (fread (fresh_block w 0 kem.length_secret_key) kem.length_secret_key sk_content),
           .free "secret_key"
             (some (fread (fresh_block w 0 kem.length_secret_key) kem.length_secret_key
               sk_content)),
           .free "ciphertext"
             (some (fread (fresh_block w 1 kem.length_ciphertext) kem.length_ciphertext
               ct_content)),
           .free "shared_secret" (some (fill (fresh_block w 2 kem.length_shared_secret) ss)),
           .kem_free] } := by
  simp [alice2_kem_main, hnew, malloc_of_ok, halloc 0, halloc 1, halloc 2, load_from_file,
    hsk, hct, hdec]

/-- The run of `alice_kem` when every stage succeeds. -/
theorem alice_kem_main_success (w : World) (kem : Kem) (pk sk : Bytes)
    (hnew : w.kem_new OQS_KEM_alg_ml_kem_512 = some kem)
    (halloc : no_malloc_failure w)
    (hpair : kem.keypair w.coins = some (pk, sk))
    (hwb₁ : w.wb_denied "public_key.bin" = false)
    (hwb₂ : w.wb_denied "secret_key.bin" = false) :
    alice_kem_main w =
      { status := .EXIT_SUCCESS,
        files := fun n =>
          if n = "secret_key.bin" then
            some ((fill (fresh_block w 1 kem.length_secret_key) sk).take kem.length_secret_key)
          else if n = "public_key.bin" then
            some ((fill (fresh_block w 0 kem.length_public_key) pk).take kem.length_public_key)
          else w.files n,
        out := alice_kem_banner
          ++ alice_kem_report kem (fill (fresh_block w 0 kem.length_public_key) pk)
              (fill (fresh_block w 1 kem.length_secret_key) sk),
        err := [],
        trace :=
          [.keypair, .fopen "public_key.bin" .wb true, .fopen "secret_key.bin" .wb true,
           .free "public_key" (some (fill (fresh_block w 0 kem.length_public_key) pk)),
           .free "secret_key" (some (fill (fresh_block w 1 kem.length_secret_key) sk)),
           .kem_free] } := by
  simp [alice_kem_main, hnew, malloc_of_ok, halloc 0, halloc 1, hpair, write_to_file, hwb₁,
    hwb₂]

/-! ## The hexadecimal dump -/

theorem hex_digit_not_blank (n : Fin 16) : is_blank (hex_digit n.val) = false := by
  revert n; decide

theorem hex_value_hex_digit (n : Fin 16) : hex_value (hex_digit n.val) = n.val := by
  revert n; decide

theorem hex_digit_eq_getD (n : Fin 16) : hex_digit n.val = upper_hex_digits.getD n.val '0' := by
  revert n; decide

theorem byte_div_lt (b : Byte) : b.val / 16 < 16 := by
  have := b.isLt; omega

theorem byte_mod_lt (b : Byte) : b.val % 16 < 16 := Nat.mod_lt _ (by decide)

theorem strip_blanks_fmt_02X (b : Byte) : strip_blanks (fmt_02X b) = fmt_02X b := by
  have h1 := hex_digit_not_blank ⟨b.val / 16, byte_div_lt b⟩
  have h2 := hex_digit_not_blank ⟨b.val % 16, byte_mod_lt b⟩
  simp only at h1 h2
  simp [strip_blanks, fmt_02X, h1, h2]

theorem strip_blanks_line_break_indent : strip_blanks line_break_indent = [] := by decide

theorem strip_blanks_append (s t : Text) :
    strip_blanks (s ++ t) = strip_blanks s ++ strip_blanks t := by
  simp [strip_blanks]

theorem fmt_02X_decode (b : Byte) :
    ∃ x y, fmt_02X b = [x, y] ∧ hex_value x * 16 + hex_value y = b.val := by
  refine ⟨_, _, rfl, ?_⟩
  have h1 := hex_value_hex_digit ⟨b.val / 16, byte_div_lt b⟩
  have h2 := hex_value_hex_digit ⟨b.val % 16, byte_mod_lt b⟩
  simp only at h1 h2
  rw [h1, h2]; omega

theorem fmt_02X_injective (a b : Byte) (h : fmt_02X a = fmt_02X b) : a = b := by
  obtain ⟨x, y, hxy, hv⟩ := fmt_02X_decode a
  obtain ⟨x', y', hxy', hv'⟩ := fmt_02X_decode b
  rw [hxy, hxy'] at h
  simp only [List.cons.injEq, and_true] at h
  obtain ⟨rfl, rfl⟩ := h
  exact Fin.ext (hv.symm.trans hv')

theorem hex_digits_of_cons (b : Byte) (d : Bytes) :
    hex_digits_of (b :: d) = fmt_02X b ++ hex_digits_of d := by
  simp [hex_digits_of]

theorem hex_digits_of_length (d : Bytes) : (hex_digits_of d).length = 2 * d.length := by
  induction d with
  | nil => rfl
  | cons b d ih =>
    rw [hex_digits_of_cons, List.length_append, ih]
    simp [fmt_02X]; omega

theorem hex_digits_of_injective (d₁ d₂ : Bytes) (h : hex_digits_of d₁ = hex_digits_of d₂) :
    d₁ = d₂ := by
  induction d₁ generalizing d₂ with
  | nil =>
    cases d₂ with
    | nil => rfl
    | cons b d₂ =>
      have := congrArg List.length h
      rw [hex_digits_of_length, hex_digits_of_length] at this
      simp at this
  | cons a d₁ ih =>
    cases d₂ with
    | nil =>
      have := congrArg List.length h
      rw [hex_digits_of_length, hex_digits_of_length] at this
      simp at this
    | cons b d₂ =>
      rw [hex_digits_of_cons, hex_digits_of_cons] at h
      have hab : fmt_02X a = fmt_02X b ∧ hex_digits_of d₁ = hex_digits_of d₂ := by
        simp only [fmt_02X, List.cons_append, List.nil_append, List.cons.injEq] at h ⊢
        exact ⟨⟨h.1, h.2.1, trivial⟩, h.2.2⟩
      rw [fmt_02X_injective a b hab.1, ih d₂ hab.2]

/-- The loop of `print_hex` from index `pre.length` on is the indexed layout of the rest. -/
theorem print_hex_loop_eq (pre d : Bytes) :
    print_hex_loop (pre ++ d) d.length pre.length =
      (d.enumFrom pre.length).flatMap fun p =>
        fmt_02X p.2 ++ (if (p.1 + 1) % 16 = 0 then line_break_indent else []) := by
  induction d generalizing pre with
  | nil => rfl
  | cons b d ih =>
    have hpre : pre ++ b :: d = (pre ++ [b]) ++ d := by simp
    have hlen : (pre ++ [b]).length = pre.length + 1 := by simp
    have hget : (pre ++ b :: d).getD pre.length 0 = b := by
      rw [List.getD_append_right _ _ _ _ (Nat.le_refl _)]; simp
    simp only [List.length_cons, print_hex_loop, hget, List.enumFrom_cons, List.flatMap_cons]
    rw [hpre, ← hlen, ih (pre ++ [b])]

theorem fmt_02X_eq_spec_hex_pair (b : Byte) : fmt_02X b = spec_hex_pair b := by
  have h1 := hex_digit_eq_getD ⟨b.val / 16, byte_div_lt b⟩
  have h2 := hex_digit_eq_getD ⟨b.val % 16, byte_mod_lt b⟩
  simp only at h1 h2
  rw [fmt_02X, h1, h2]
  rfl

theorem line_break_indent_eq : line_break_indent = '\n' :: List.replicate 9 ' ' := by
  decide

theorem print_hex_body_eq_layout (d : Bytes) :
    print_hex_loop d d.length 0 ++ "\n".toList = spec_hex_layout d := by
  have h := print_hex_loop_eq [] d
  simp only [List.nil_append, List.length_nil] at h
  rw [h, spec_hex_layout, List.enum]
  have hf : (fun p : Nat × Byte =>
        fmt_02X p.2 ++ (if (p.1 + 1) % 16 = 0 then line_break_indent else []))
      = fun p : Nat × Byte =>
        spec_hex_pair p.2 ++ (if (p.1 + 1) % 16 = 0 then '\n' :: List.replicate 9 ' ' else []) := by
    funext p
    rw [fmt_02X_eq_spec_hex_pair, line_break_indent_eq]
  rw [hf]
  rfl

theorem strip_blanks_layout_from (d : Bytes) (i : Nat) :
    strip_blanks ((d.enumFrom i).flatMap fun p =>
        fmt_02X p.2 ++ (if (p.1 + 1) % 16 = 0 then line_break_indent else []))
      = hex_digits_of d := by
  induction d generalizing i with
  | nil => rfl
  | cons b d ih =>
    rw [List.enumFrom_cons, List.flatMap_cons, strip_blanks_append, strip_blanks_append,
      ih (i + 1), strip_blanks_fmt_02X, hex_digits_of_cons]
    split
    · rw [strip_blanks_line_break_indent]; simp
    · simp [strip_blanks]

theorem strip_blanks_body (d : Bytes) :
    strip_blanks (print_hex_loop d d.length 0 ++ "\n".toList) = hex_digits_of d := by
  have h := print_hex_loop_eq [] d
  simp only [List.nil_append, List.length_nil] at h
  rw [h, strip_blanks_append, strip_blanks_layout_from d 0]
  simp [strip_blanks, is_blank]

theorem layout_ends_with_break (d : Bytes) (hpos : 0 < d.length) (hmul : d.length % 16 = 0) :
    ∃ pre, spec_hex_layout d = pre ++ ('\n' :: List.replicate 9 ' ') ++ ['\n'] := by
  have hne : d ≠ [] := by
    intro h; simp [h] at hpos
  obtain ⟨init, last, rfl⟩ : ∃ init last, d = init ++ [last] :=
    ⟨d.dropLast, d.getLast hne, (List.dropLast_append_getLast hne).symm⟩
  have hidx : (init.length + 1) % 16 = 0 := by simpa using hmul
  refine ⟨init.enum.flatMap (fun p =>
      spec_hex_pair p.2 ++ (if (p.1 + 1) % 16 = 0 then '\n' :: List.replicate 9 ' ' else []))
        ++ spec_hex_pair last, ?_⟩
  simp [spec_hex_layout, List.enum_append, List.flatMap_append, hidx]

/-- C10: for every label and byte sequence `d`, `print_hex` emits the label, `: ` and a
body which, once blanks and line breaks are removed, is exactly the two uppercase
hexadecimal digits of each byte of `d` in order, `2 * n` characters (64 for 32 bytes);
two byte sequences give the same digits iff they are equal; and the body is, character
for character, the digits of the bytes with one line break and nine spaces after every
16th byte, also after the last byte when the length is a positive multiple of 16, and one
line break at the end. -/
theorem print_hex_faithful (label : Text) (d : Bytes) :
    print_hex label d d.length = label ++ ": ".toList ++ hex_dump_body d
    ∧ strip_blanks (hex_dump_body d) = hex_digits_of d
    ∧ (strip_blanks (hex_dump_body d)).length = 2 * d.length
    ∧ (∀ b : Byte, fmt_02X b =
        [upper_hex_digits.getD (b.val / 16) '0', upper_hex_digits.getD (b.val % 16) '0'])
    ∧ (∀ d' : Bytes,
        strip_blanks (hex_dump_body d') = strip_blanks (hex_dump_body d) ↔ d' = d)
    ∧ (d.length = 32 → (strip_blanks (hex_dump_body d)).length = 64)
    ∧ hex_dump_body d = spec_hex_layout d
    ∧ (0 < d.length → d.length % 16 = 0 →
        ∃ pre, hex_dump_body d = pre ++ ('\n' :: List.replicate 9 ' ') ++ ['\n'])
    ∧ strip_blanks (hex_dump_body d) = d.flatMap spec_hex_pair
    ∧ print_hex label d d.length = label ++ [':', ' '] ++ spec_hex_layout d := by
  have hlen : (strip_blanks (hex_dump_body d)).length = 2 * d.length := by
    rw [hex_dump_body, strip_blanks_body, hex_digits_of_length]
  have hlay : hex_dump_body d = spec_hex_layout d := print_hex_body_eq_layout d
  have hpre : print_hex label d d.length = label ++ ": ".toList ++ hex_dump_body d := by
    simp [print_hex, hex_dump_body]
  refine ⟨hpre, strip_blanks_body d, hlen, ?_, ?_, ?_, hlay, ?_, ?_, ?_⟩
  · intro b
    have h1 := hex_digit_eq_getD ⟨b.val / 16, byte_div_lt b⟩
    have h2 := hex_digit_eq_getD ⟨b.val % 16, byte_mod_lt b⟩
    simp only at h1 h2
    rw [fmt_02X, h1, h2]
  · intro d'
    constructor
    · intro h
      rw [hex_dump_body, hex_dump_body, strip_blanks_body, strip_blanks_body] at h
      exact hex_digits_of_injective d' d h
    · rintro rfl; rfl
  · intro h; rw [hlen, h]
  · intro hpos hmul
    rw [hlay]
    exact layout_ends_with_break d hpos hmul
  · rw [hex_dump_body, strip_blanks_body, hex_digits_of]
    congr 1
    funext b
    exact fmt_02X_eq_spec_hex_pair b
  · rw [hpre, hlay]
    rfl

/-- C10 at thirty-two, sixteen and seventeen bytes: 64 digits; a dump of sixteen bytes
ends with the line break, nine spaces and the final line break; and the dump of seventeen
bytes `AB` read character by character. -/
theorem print_hex_faithful_witness :
    (strip_blanks (hex_dump_body (List.replicate 32 171))).length = 64
    ∧ (∃ pre, hex_dump_body (List.replicate 16 171)
        = pre ++ ('\n' :: List.replicate 9 ' ') ++ ['\n'])
    ∧ print_hex ['k'] (List.replicate 17 171) 17
        = ("k: ABABABABABABABABABABABABABABABAB" ++ "\n" ++ "         " ++ "AB" ++ "\n").toList :=
  ⟨(print_hex_faithful [] (List.replicate 32 171)).2.2.2.2.2.1 (by decide),
   (print_hex_faithful [] (List.replicate 16 171)).2.2.2.2.2.2.2.1 (by decide) (by decide),
   (print_hex_faithful ['k'] (List.replicate 17 171)).2.2.2.2.2.2.2.2.2.trans (by decide)⟩

/-! ## Round trip -/

theorem toy_kem_correct : toy_kem.correct := by
  intro r pk sk h c
  simp only [toy_kem, Option.some.injEq, Prod.mk.injEq] at h
  obtain ⟨rfl, rfl⟩ := h
  exact ⟨_, _, rfl, rfl⟩

theorem toy_kem_lengths_ok : toy_kem.lengths_ok := by
  refine ⟨?_, ?_, ?_⟩
  · intro r pk sk h
    simp only [toy_kem, Option.some.injEq, Prod.mk.injEq] at h
    obtain ⟨rfl, rfl⟩ := h
    exact ⟨rfl, rfl⟩
  · intro c pk ct ss h
    simp only [toy_kem] at h
    split at h
    · simp only [Option.some.injEq, Prod.mk.injEq] at h
      obtain ⟨rfl, rfl⟩ := h
      exact ⟨rfl, rfl⟩
    · cases h
  · intro ct sk ss h
    simp only [toy_kem] at h
    split at h
    · simp only [Option.some.injEq] at h
      subst h; rfl
    · cases h

/-- C1: with a correct KEM context whose outputs have the advertised lengths, a store in
which `public_key_1024.bin` and `secret_key_1024.bin` hold one key pair of `keypair`, no
allocation failure and a ciphertext file that can be opened for writing, `bob_kem` and
then `alice2_kem` on the store `bob_kem` left both end with `EXIT_SUCCESS`, and the
shared secret `alice2_kem` prints is the one `bob_kem` printed. -/
theorem roundtrip_bob_then_alice2 (w₁ w₂ : World) (kem : Kem) (r : Nat) (pk sk : Bytes)
    (hnew₁ : w₁.kem_new OQS_KEM_alg_ml_kem_1024 = some kem)
    (hnew₂ : w₂.kem_new OQS_KEM_alg_ml_kem_1024 = some kem)
    (hcorrect : kem.correct) (hlen : kem.lengths_ok)
    (hpair : kem.keypair r = some (pk, sk))
    (hpub : w₁.files "public_key_1024.bin" = some pk)
    (hsec : w₁.files "secret_key_1024.bin" = some sk)
    (halloc₁ : no_malloc_failure w₁) (halloc₂ : no_malloc_failure w₂)
    (hwb : w₁.wb_denied "ciphertext.bin" = false)
    (hstore : w₂.files = (bob_kem_main w₁).files) :
    (bob_kem_main w₁).status = .EXIT_SUCCESS
    ∧ (alice2_kem_main w₂).status = .EXIT_SUCCESS
    ∧ ∃ ct ss, kem.encaps w₁.coins pk = some (ct, ss)
        ∧ ss.length = kem.length_shared_secret
        ∧ (bob_kem_main w₁).out =
            bob_kem_banner ++ "[INFO] Loaded Alice's public key.\n".toList
              ++ "[INFO] Encapsulated ciphertext saved to 'ciphertext.bin'.\n".toList
              ++ "[INFO] Key encapsulation successful:\n".toList
              ++ print_hex "Plaintext shared secret".toList ss kem.length_shared_secret
              ++ print_hex "Encapsulated ciphertext".toList ct kem.length_ciphertext
        ∧ (alice2_kem_main w₂).out =
            alice2_kem_banner
              ++ "[INFO] Loaded Alice's secret key and Bob's ciphertext.\n".toList
              ++ "[INFO] Key decapsulation successful:\n".toList
              ++ print_hex "Recovered shared secret".toList ss kem.length_shared_secret := by
  obtain ⟨ct, ss, henc, hdec⟩ := hcorrect r pk sk hpair w₁.coins
  obtain ⟨hpkl, hskl⟩ := hlen.1 r pk sk hpair
  obtain ⟨hctl, hssl⟩ := hlen.2.1 _ pk ct ss henc
  have hload : fread (fresh_block w₁ 0 kem.length_public_key) kem.length_public_key pk = pk :=
    fread_exact _ _ _ (fresh_block_length _ _ _) hpkl
  have hfct : fill (fresh_block w₁ 1 kem.length_ciphertext) ct = ct :=
    fill_exact _ _ (by rw [fresh_block_length, hctl])
  have hfss : fill (fresh_block w₁ 2 kem.length_shared_secret) ss = ss :=
    fill_exact _ _ (by rw [fresh_block_length, hssl])
  have hbob := bob_kem_main_success w₁ kem pk ct ss hnew₁ halloc₁ hpub (by rw [hload]; exact henc) hwb
  rw [hfct, hfss] at hbob
  have hfiles : w₂.files = fun n =>
      if n = "ciphertext.bin" then some (ct.take kem.length_ciphertext) else w₁.files n := by
    rw [hstore, hbob]
  have htake : ct.take kem.length_ciphertext = ct := by
    rw [← hctl]; exact List.take_length _
  have hsk₂ : w₂.files "secret_key_1024.bin" = some sk := by
    rw [hfiles]; simp [hsec]
  have hct₂ : w₂.files "ciphertext.bin" = some ct := by
    rw [hfiles]; simp [htake]
  have hloadsk :
      fread (fresh_block w₂ 0 kem.length_secret_key) kem.length_secret_key sk = sk :=
    fread_exact _ _ _ (fresh_block_length _ _ _) hskl
  have hloadct :
      fread (fresh_block w₂ 1 kem.length_ciphertext) kem.length_ciphertext ct = ct :=
    fread_exact _ _ _ (fresh_block_length _ _ _) hctl
  have hfss₂ : fill (fresh_block w₂ 2 kem.length_shared_secret) ss = ss :=
    fill_exact _ _ (by rw [fresh_block_length, hssl])
  have halice := alice2_kem_main_success w₂ kem sk ct ss hnew₂ halloc₂ hsk₂ hct₂
    (by rw [hloadsk, hloadct]; exact hdec)
  rw [hfss₂] at halice
  refine ⟨by rw [hbob], by rw [halice], ct, ss, henc, hssl, ?_, ?_⟩
  · rw [hbob]; simp [bob_kem_report]
  · rw [halice]; simp [alice2_kem_report]

/-- C1 on the stand-in KEM: both programs succeed and both print the secret `08`. -/
theorem roundtrip_bob_then_alice2_witness :
    (bob_kem_main toy_world_bob).status = .EXIT_SUCCESS
    ∧ (alice2_kem_main toy_world_alice2).status = .EXIT_SUCCESS
    ∧ ∃ ct ss, toy_kem.encaps toy_world_bob.coins [3, 4] = some (ct, ss)
        ∧ ss.length = toy_kem.length_shared_secret
        ∧ (bob_kem_main toy_world_bob).out =
            bob_kem_banner ++ "[INFO] Loaded Alice's public key.\n".toList
              ++ "[INFO] Encapsulated ciphertext saved to 'ciphertext.bin'.\n".toList
              ++ "[INFO] Key encapsulation successful:\n".toList
              ++ print_hex "Plaintext shared secret".toList ss toy_kem.length_shared_secret
              ++ print_hex "Encapsulated ciphertext".toList ct toy_kem.length_ciphertext
        ∧ (alice2_kem_main toy_world_alice2).out =
            alice2_kem_banner
              ++ "[INFO] Loaded Alice's secret key and Bob's ciphertext.\n".toList
              ++ "[INFO] Key decapsulation successful:\n".toList
              ++ print_hex "Recovered shared secret".toList ss
                  toy_kem.length_shared_secret :=
  roundtrip_bob_then_alice2 toy_world_bob toy_world_alice2 toy_kem 3 [3, 4] [3, 5]
    rfl rfl toy_kem_correct toy_kem_lengths_ok (by decide) (by decide)
    (by decide) (fun _ _ => rfl) (fun _ _ => rfl) (by decide) rfl

/-! ## The three programs in sequence -/

/-- C2: from a store without artifacts, `alice_kem` succeeds under `ML-KEM-512` and writes
`public_key.bin` and `secret_key.bin`; `bob_kem`, bound to `ML-KEM-1024`, then opens
`public_key_1024.bin`, which nobody wrote, and exits with `EXIT_FAILURE` before any
encapsulation; no ciphertext exists and `alice2_kem` fails on `secret_key_1024.bin`. -/
theorem end_to_end_flow_breaks :
    (alice_kem_main toy_world).status = .EXIT_SUCCESS
    ∧ toy_world_after_keygen.files "public_key.bin" = some [5, 6]
    ∧ toy_world_after_keygen.files "secret_key.bin" = some [5, 7]
    ∧ toy_world_after_keygen.files "public_key_1024.bin" = none
    ∧ (bob_kem_main toy_world_after_keygen).status = .EXIT_FAILURE
    ∧ (bob_kem_main toy_world_after_keygen).trace = [.fopen "public_key_1024.bin" .rb false]
    ∧ toy_world_after_encaps.files "ciphertext.bin" = none
    ∧ (alice2_kem_main toy_world_after_encaps).status = .EXIT_FAILURE
    ∧ (alice2_kem_main toy_world_after_encaps).trace
        = [.fopen "secret_key_1024.bin" .rb false]
    ∧ OQS_KEM_alg_ml_kem_512 ≠ OQS_KEM_alg_ml_kem_1024 := by
  decide

/-! ## Exit status -/

/-- C6: when the first `malloc` of `alice_kem` returns the null pointer, the program does
not return a failure status: it calls `OQS_KEM_keypair` with the null buffer. In the same
world `bob_kem` and `alice2_kem` test their allocations and return `EXIT_FAILURE`. -/
theorem alice_kem_ignores_malloc_failure :
    malloc toy_world_malloc_null 0 toy_kem.length_public_key = none
    ∧ (alice_kem_main toy_world_malloc_null).status = .undefined_behaviour
    ∧ (alice_kem_main toy_world_malloc_null).status ≠ .EXIT_FAILURE
    ∧ (alice_kem_main toy_world_malloc_null).trace = [.keypair]
    ∧ (bob_kem_main toy_world_malloc_null).status = .EXIT_FAILURE
    ∧ (alice2_kem_main toy_world_malloc_null).status = .EXIT_FAILURE := by
  decide

/-! ## Loading with another length -/

/-- C3 fails: `public_key_1024.bin` holds one byte where the context expects two, yet
`load_from_file` returns a buffer (the byte read, then what the block held), `bob_kem`
invokes the encapsulation on it and ends with `EXIT_SUCCESS`. -/
theorem short_public_key_is_not_rejected :
    toy_world_short_key.files "public_key_1024.bin" = some [3]
    ∧ toy_kem.length_public_key = 2
    ∧ load_from_file toy_world_short_key.files "public_key_1024.bin"
        (fresh_block toy_world_short_key 0 2) 2 = some [3, 170]
    ∧ (bob_kem_main toy_world_short_key).status = .EXIT_SUCCESS
    ∧ Event.encaps [3, 170] ∈ (bob_kem_main toy_world_short_key).trace := by
  decide

/-- C3 as amended: `load_from_file` compares no length. A file that opens, whatever its
length, yields the buffer whose start is the first `length` bytes of the file (fewer when
the file is shorter, the rest of the buffer kept); `bob_kem` then invokes the encapsulation
and `alice2_kem` the decapsulation on the loaded buffers. Only a file that cannot be
opened ends the role in failure with no primitive invoked. -/
theorem load_compares_no_length (w : World) (kem : Kem)
    (hnew : w.kem_new OQS_KEM_alg_ml_kem_1024 = some kem)
    (halloc : no_malloc_failure w) :
    (∀ (files : Store) (name : String) (buffer : Bytes) (length : Nat) (content : Bytes),
        files name = some content →
        load_from_file files name buffer length
          = some (content.take length ++ buffer.drop (min length content.length)))
    ∧ (∀ content, w.files "public_key_1024.bin" = some content →
        Event.encaps
            (content.take kem.length_public_key
              ++ (fresh_block w 0 kem.length_public_key).drop
                  (min kem.length_public_key content.length))
          ∈ (bob_kem_main w).trace)
    ∧ (∀ sk ct, w.files "secret_key_1024.bin" = some sk → w.files "ciphertext.bin" = some ct →
        Event.decaps
            (ct.take kem.length_ciphertext
              ++ (fresh_block w 1 kem.length_ciphertext).drop
                  (min kem.length_ciphertext ct.length))
            (sk.take kem.length_secret_key
              ++ (fresh_block w 0 kem.length_secret_key).drop
                  (min kem.length_secret_key sk.length))
          ∈ (alice2_kem_main w).trace)
    ∧ (w.files "public_key_1024.bin" = none →
        (bob_kem_main w).status = .EXIT_FAILURE
        ∧ ∀ pk, Event.encaps pk ∉ (bob_kem_main w).trace)
    ∧ (w.files "secret_key_1024.bin" = none ∨ w.files "ciphertext.bin" = none →
        (alice2_kem_main w).status = .EXIT_FAILURE
        ∧ ∀ ct sk, Event.decaps ct sk ∉ (alice2_kem_main w).trace) := by
  have m0 := malloc_of_no_failure w halloc 0 (by decide)
  have m1 := malloc_of_no_failure w halloc 1 (by decide)
  have m2 := malloc_of_no_failure w halloc 2 (by decide)
  refine ⟨?_, ?_, ?_, ?_, ?_⟩
  · intro files name buffer length content h
    simp [load_from_file, h, fread]
  · intro content h
    simp only [bob_kem_main, hnew, m0, m1, m2, load_from_file, h, fread]
    split
    · simp
    · split <;> simp
  · intro sk ct hsk hct
    simp only [alice2_kem_main, hnew, m0, m1, m2, load_from_file, hsk, hct, fread]
    split <;> simp
  · intro h
    simp [bob_kem_main, hnew, m0, m1, m2, load_from_file, h]
  · intro h
    rcases h with h | h
    · simp [alice2_kem_main, hnew, m0, m1, m2, load_from_file, h]
    · cases hsk : w.files "secret_key_1024.bin" <;>
        simp [alice2_kem_main, hnew, m0, m1, m2, load_from_file, h, hsk]

/-- C3 as amended, on the one-byte public key and on the store without files. -/
theorem load_compares_no_length_witness :
    Event.encaps [3, 170] ∈ (bob_kem_main toy_world_short_key).trace
    ∧ (bob_kem_main toy_world).status = .EXIT_FAILURE
    ∧ (alice2_kem_main toy_world).status = .EXIT_FAILURE :=
  ⟨(load_compares_no_length toy_world_short_key toy_kem rfl (fun _ _ => rfl)).2.1 [3] rfl,
   ((load_compares_no_length toy_world toy_kem rfl (fun _ _ => rfl)).2.2.2.1 rfl).1,
   ((load_compares_no_length toy_world toy_kem rfl (fun _ _ => rfl)).2.2.2.2
      (Or.inl rfl)).1⟩

/-! ## The encapsulator and the store -/

/-- A run of `bob_kem` that does not end with `EXIT_SUCCESS` ends with `EXIT_FAILURE`, has
changed no file and has opened no file for writing with success. -/
theorem bob_kem_main_failure_keeps_store (w : World)
    (h : (bob_kem_main w).status ≠ .EXIT_SUCCESS) :
    (bob_kem_main w).status = .EXIT_FAILURE ∧ (bob_kem_main w).files = w.files
    ∧ ∀ name, Event.fopen name .wb true ∉ (bob_kem_main w).trace := by
  revert h
  simp only [bob_kem_main]
  split
  · simp
  · split
    · split
      · simp
      · split
        · simp
        · split <;> simp
    · simp

/-- C4: if `OQS_KEM_new` fails, or one of the three allocations fails, or the public key
file cannot be opened, or the encapsulation that was invoked does not return success,
`bob_kem` ends with `EXIT_FAILURE` and every file is as before; no file, so no
ciphertext, was opened for writing. -/
theorem bob_publishes_no_partial_artifact (w : World) :
    ((w.kem_new OQS_KEM_alg_ml_kem_1024 = none
        ∨ (∃ n, n < 3 ∧ w.malloc_fails n = true)
        ∨ w.files "public_key_1024.bin" = none
        ∨ (∃ kem pk, w.kem_new OQS_KEM_alg_ml_kem_1024 = some kem
            ∧ Event.encaps pk ∈ (bob_kem_main w).trace ∧ kem.encaps w.coins pk = none)) →
      (bob_kem_main w).status = .EXIT_FAILURE
      ∧ (bob_kem_main w).files = w.files
      ∧ ∀ name, Event.fopen name .wb true ∉ (bob_kem_main w).trace) := by
  intro h
  apply bob_kem_main_failure_keeps_store
  rcases h with h | ⟨n, hn, hfail⟩ | h | ⟨kem, pk, hnew, hmem, henc⟩
  · simp [bob_kem_main, h]
  · cases hnew : w.kem_new OQS_KEM_alg_ml_kem_1024 with
    | none => simp [bob_kem_main, hnew]
    | some kem =>
      have : n = 0 ∨ n = 1 ∨ n = 2 := by omega
      simp only [bob_kem_main, hnew]
      rcases this with rfl | rfl | rfl <;> simp only [malloc_of_fail _ _ _ hfail] <;> simp
  · simp only [bob_kem_main, load_from_file, h]
    split
    · simp
    · split <;> simp
  · revert hmem
    simp only [bob_kem_main, hnew]
    split
    · simp only [load_from_file]
      split
      · simp
      · split
        · simp
        · rename_i loaded _ _ ct ss hres
          intro hmem
          have hpk : pk = loaded := by
            revert hmem
            split <;> simp
          rw [← hpk, henc] at hres
          cases hres
    · simp


/-- C4 on four worlds, one for each failing stage. -/
theorem bob_publishes_no_partial_artifact_witness :
    ((bob_kem_main toy_world_no_kem).status = .EXIT_FAILURE
      ∧ (bob_kem_main toy_world_no_kem).files = toy_world_no_kem.files
      ∧ ∀ name, Event.fopen name .wb true ∉ (bob_kem_main toy_world_no_kem).trace)
    ∧ ((bob_kem_main toy_world_bob_malloc_null).status = .EXIT_FAILURE
      ∧ (bob_kem_main toy_world_bob_malloc_null).files = toy_world_bob_malloc_null.files
      ∧ ∀ name, Event.fopen name .wb true ∉ (bob_kem_main toy_world_bob_malloc_null).trace)
    ∧ ((bob_kem_main toy_world).status = .EXIT_FAILURE
      ∧ (bob_kem_main toy_world).files = toy_world.files
      ∧ ∀ name, Event.fopen name .wb true ∉ (bob_kem_main toy_world).trace)
    ∧ ((bob_kem_main toy_world_encaps_fails).status = .EXIT_FAILURE
      ∧ (bob_kem_main toy_world_encaps_fails).files = toy_world_encaps_fails.files
      ∧ ∀ name, Event.fopen name .wb true ∉ (bob_kem_main toy_world_encaps_fails).trace) :=
  ⟨bob_publishes_no_partial_artifact toy_world_no_kem (Or.inl rfl),
   bob_publishes_no_partial_artifact toy_world_bob_malloc_null
     (Or.inr (Or.inl ⟨2, by decide, rfl⟩)),
   bob_publishes_no_partial_artifact toy_world (Or.inr (Or.inr (Or.inl rfl))),
   bob_publishes_no_partial_artifact toy_world_encaps_fails
     (Or.inr (Or.inr (Or.inr ⟨toy_kem_encaps_fails, [3, 4], rfl, by decide, rfl⟩)))⟩

/-- Every file `bob_kem` opens is `public_key_1024.bin` for reading or `ciphertext.bin`
for writing. -/
theorem bob_kem_main_opens (w : World) (name : String) (mode : Mode) (opened : Bool)
    (h : Event.fopen name mode opened ∈ (bob_kem_main w).trace) :
    (name = "public_key_1024.bin" ∧ mode = .rb) ∨ (name = "ciphertext.bin" ∧ mode = .wb) := by
  revert h
  simp only [bob_kem_main]
  (repeat' split) <;> simp <;> tauto

/-- No file other than `ciphertext.bin` changes in a run of `bob_kem`. -/
theorem bob_kem_main_keeps_other_files (w : World) (n : String) (hn : n ≠ "ciphertext.bin") :
    (bob_kem_main w).files n = w.files n := by
  cases hwb : w.wb_denied "ciphertext.bin"
  · have hw := fun files data length => write_to_file_ok w files "ciphertext.bin" data length hwb
    simp only [bob_kem_main, hw]
    (repeat' split) <;> simp [hn]
  · have hw := fun files data length =>
      write_to_file_denied w files "ciphertext.bin" data length hwb
    simp only [bob_kem_main, hw]
    (repeat' split) <;> simp

/-- Apart from the files it leaves, a run of `bob_kem` depends on the store only through
the file `public_key_1024.bin`. -/
theorem bob_kem_main_reads_only_public_key (w : World) (files' : Store)
    (hpub : files' "public_key_1024.bin" = w.files "public_key_1024.bin") :
    (bob_kem_main { w with files := files' }).status = (bob_kem_main w).status
    ∧ (bob_kem_main { w with files := files' }).out = (bob_kem_main w).out
    ∧ (bob_kem_main { w with files := files' }).err = (bob_kem_main w).err
    ∧ (bob_kem_main { w with files := files' }).trace = (bob_kem_main w).trace
    ∧ ((bob_kem_main w).status = .EXIT_SUCCESS →
        (bob_kem_main { w with files := files' }).files "ciphertext.bin"
          = (bob_kem_main w).files "ciphertext.bin") := by
  cases hwb : w.wb_denied "ciphertext.bin"
  · have hw := fun files data length => write_to_file_ok w files "ciphertext.bin" data length hwb
    have hw' := fun files data length =>
      write_to_file_ok { w with files := files' } files "ciphertext.bin" data length hwb
    simp only [bob_kem_main, malloc, fresh_block, load_from_file, hpub, perror_opening, hw, hw']
    (repeat' split) <;> simp
  · have hw := fun files data length =>
      write_to_file_denied w files "ciphertext.bin" data length hwb
    have hw' := fun files data length =>
      write_to_file_denied { w with files := files' } files "ciphertext.bin" data length hwb
    simp only [bob_kem_main, malloc, fresh_block, load_from_file, hpub, perror_opening, hw, hw']
    (repeat' split) <;> simp

/-- C5: for two stores that agree on every file except `secret_key.bin` and
`secret_key_1024.bin`, and otherwise the same world (so the same encapsulation outcome),
`bob_kem` ends with the same status, prints the same standard output, makes the same
calls and leaves the same files outside the two secret-key files; it opens only
`public_key_1024.bin` for reading and `ciphertext.bin` for writing, and changes no file
but `ciphertext.bin`. -/
theorem bob_isolated_from_secret_key (w : World) (files' : Store)
    (hagree : ∀ n, n ≠ "secret_key.bin" → n ≠ "secret_key_1024.bin" → files' n = w.files n) :
    (bob_kem_main { w with files := files' }).status = (bob_kem_main w).status
    ∧ (bob_kem_main { w with files := files' }).out = (bob_kem_main w).out
    ∧ (bob_kem_main { w with files := files' }).trace = (bob_kem_main w).trace
    ∧ (∀ n, n ≠ "secret_key.bin" → n ≠ "secret_key_1024.bin" →
        (bob_kem_main { w with files := files' }).files n = (bob_kem_main w).files n)
    ∧ (∀ name mode opened, Event.fopen name mode opened ∈ (bob_kem_main w).trace →
        (name = "public_key_1024.bin" ∧ mode = .rb) ∨ (name = "ciphertext.bin" ∧ mode = .wb))
    ∧ (∀ n, n ≠ "ciphertext.bin" → (bob_kem_main w).files n = w.files n)
    ∧ (∀ n, n ≠ "ciphertext.bin" → (bob_kem_main { w with files := files' }).files n = files' n)
    := by
  have hpub : files' "public_key_1024.bin" = w.files "public_key_1024.bin" :=
    hagree _ (by decide) (by decide)
  have hct : files' "ciphertext.bin" = w.files "ciphertext.bin" :=
    hagree _ (by decide) (by decide)
  obtain ⟨hs, ho, _, ht, hc⟩ := bob_kem_main_reads_only_public_key w files' hpub
  refine ⟨hs, ho, ht, ?_, bob_kem_main_opens w, bob_kem_main_keeps_other_files w,
    bob_kem_main_keeps_other_files { w with files := files' }⟩
  intro n h1 h2
  by_cases hn : n = "ciphertext.bin"
  · subst hn
    by_cases hok : (bob_kem_main w).status = .EXIT_SUCCESS
    · exact hc hok
    · have hok' : (bob_kem_main { w with files := files' }).status ≠ .EXIT_SUCCESS := by
        rw [hs]; exact hok
      rw [(bob_kem_main_failure_keeps_store _ hok).2.1,
        (bob_kem_main_failure_keeps_store _ hok').2.1]
      exact hct
  · rw [bob_kem_main_keeps_other_files w n hn,
      bob_kem_main_keeps_other_files { w with files := files' } n hn]
    exact hagree n h1 h2

/-- C5 on the stand-in key files and the same files with another secret key. -/
theorem bob_isolated_from_secret_key_witness :
    (bob_kem_main { toy_world_bob with files := toy_key_files_other_secret }).status
        = (bob_kem_main toy_world_bob).status
    ∧ (bob_kem_main { toy_world_bob with files := toy_key_files_other_secret }).out
        = (bob_kem_main toy_world_bob).out
    ∧ (bob_kem_main { toy_world_bob with files := toy_key_files_other_secret }).trace
        = (bob_kem_main toy_world_bob).trace :=
  have h := bob_isolated_from_secret_key toy_world_bob toy_key_files_other_secret
    (by
      intro n _ h2
      simp [toy_key_files_other_secret, toy_world_bob, h2])
  ⟨h.1, h.2.1, h.2.2.1⟩

/-! ## What key generation prints -/

theorem hex_dump_body_injective (d₁ d₂ : Bytes) (h : hex_dump_body d₁ = hex_dump_body d₂) :
    d₁ = d₂ := by
  apply hex_digits_of_injective
  have := congrArg strip_blanks h
  rwa [hex_dump_body, hex_dump_body, strip_blanks_body, strip_blanks_body] at this

/-- The standard output of a successful `alice_kem`, given keys of the advertised lengths. -/
theorem alice_kem_main_out (w : World) (kem : Kem) (pk sk : Bytes)
    (hnew : w.kem_new OQS_KEM_alg_ml_kem_512 = some kem)
    (halloc : no_malloc_failure w)
    (hpair : kem.keypair w.coins = some (pk, sk))
    (hlen : kem.lengths_ok)
    (hwb₁ : w.wb_denied "public_key.bin" = false)
    (hwb₂ : w.wb_denied "secret_key.bin" = false) :
    (alice_kem_main w).out =
      (alice_kem_banner ++ "[INFO] Generated keys:\n".toList
        ++ print_hex "Public Key".toList pk pk.length ++ "Secret Key".toList ++ ": ".toList)
      ++ (hex_dump_body sk
        ++ ("[INFO] Generated files:\n".toList ++ "  - public_key.bin\n".toList
          ++ "  - secret_key.bin\n".toList)) := by
  obtain ⟨hpkl, hskl⟩ := hlen.1 _ pk sk hpair
  rw [alice_kem_main_success w kem pk sk hnew halloc hpair hwb₁ hwb₂,
    fill_exact (fresh_block w 0 kem.length_public_key) pk (by rw [fresh_block_length, hpkl]),
    fill_exact (fresh_block w 1 kem.length_secret_key) sk (by rw [fresh_block_length, hskl])]
  simp only [alice_kem_report, print_hex, hex_dump_body, hpkl, hskl, List.append_assoc]

theorem toy_kem_other_secret_lengths_ok : toy_kem_other_secret.lengths_ok := by
  refine ⟨?_, toy_kem_lengths_ok.2.1, toy_kem_lengths_ok.2.2⟩
  intro r pk sk h
  simp only [toy_kem_other_secret, Option.some.injEq, Prod.mk.injEq] at h
  obtain ⟨rfl, rfl⟩ := h
  exact ⟨rfl, rfl⟩

set_option maxRecDepth 8000 in
/-- C7 fails: two runs of `alice_kem` whose key pairs share the public key `[5, 6]` and
differ in the secret key print different text; the secret key is on standard output. -/
theorem alice_prints_secret_key :
    toy_kem.keypair toy_world.coins = some ([5, 6], [5, 7])
    ∧ toy_kem_other_secret.keypair toy_world_other_secret.coins = some ([5, 6], [5, 8])
    ∧ (alice_kem_main toy_world).status = .EXIT_SUCCESS
    ∧ (alice_kem_main toy_world_other_secret).status = .EXIT_SUCCESS
    ∧ (alice_kem_main toy_world).out ≠ (alice_kem_main toy_world_other_secret).out
    ∧ (alice_kem_main toy_world).out =
        ("=== Alice: Key Generation ===\n[INFO] Using algorithm: ML-KEM-512\n"
          ++ "[INFO] Generated keys:\nPublic Key: 0506\nSecret Key: 0507\n"
          ++ "[INFO] Generated files:\n  - public_key.bin\n  - secret_key.bin\n").toList := by
  decide

/-- C7 as amended: a successful `alice_kem` writes the secret key to `secret_key.bin` and
also prints it, in hexadecimal under the label `Secret Key`, to standard output; two
successful runs whose key pairs have the same public key print the same text if and only
if their secret keys are equal. -/
theorem alice_stdout_determines_secret_key (w₁ w₂ : World) (kem₁ kem₂ : Kem)
    (pk sk₁ sk₂ : Bytes)
    (hnew₁ : w₁.kem_new OQS_KEM_alg_ml_kem_512 = some kem₁)
    (hnew₂ : w₂.kem_new OQS_KEM_alg_ml_kem_512 = some kem₂)
    (halloc₁ : no_malloc_failure w₁) (halloc₂ : no_malloc_failure w₂)
    (hpair₁ : kem₁.keypair w₁.coins = some (pk, sk₁))
    (hpair₂ : kem₂.keypair w₂.coins = some (pk, sk₂))
    (hlen₁ : kem₁.lengths_ok) (hlen₂ : kem₂.lengths_ok)
    (hpub₁ : w₁.wb_denied "public_key.bin" = false)
    (hsec₁ : w₁.wb_denied "secret_key.bin" = false)
    (hpub₂ : w₂.wb_denied "public_key.bin" = false)
    (hsec₂ : w₂.wb_denied "secret_key.bin" = false) :
    (alice_kem_main w₁).files "secret_key.bin" = some sk₁
    ∧ (alice_kem_main w₁).out =
        alice_kem_banner ++ "[INFO] Generated keys:\n".toList
          ++ print_hex "Public Key".toList pk pk.length
          ++ print_hex "Secret Key".toList sk₁ sk₁.length
          ++ "[INFO] Generated files:\n".toList ++ "  - public_key.bin\n".toList
          ++ "  - secret_key.bin\n".toList
    ∧ ((alice_kem_main w₁).out = (alice_kem_main w₂).out ↔ sk₁ = sk₂) := by
  have ho₁ := alice_kem_main_out w₁ kem₁ pk sk₁ hnew₁ halloc₁ hpair₁ hlen₁ hpub₁ hsec₁
  have ho₂ := alice_kem_main_out w₂ kem₂ pk sk₂ hnew₂ halloc₂ hpair₂ hlen₂ hpub₂ hsec₂
  obtain ⟨hpkl, hskl⟩ := hlen₁.1 _ pk sk₁ hpair₁
  refine ⟨?_, ?_, ?_⟩
  · rw [alice_kem_main_success w₁ kem₁ pk sk₁ hnew₁ halloc₁ hpair₁ hpub₁ hsec₁,
      fill_exact _ _ (by rw [fresh_block_length, hskl])]
    simp [← hskl]
  · rw [ho₁]
    simp only [print_hex, hex_dump_body, List.append_assoc]
  · rw [ho₁, ho₂]
    constructor
    · intro h
      exact hex_dump_body_injective _ _
        (List.append_cancel_right (List.append_cancel_left h))
    · rintro rfl; rfl

/-- C7 as amended, on the two stand-in worlds: the outputs differ. -/
theorem alice_stdout_determines_secret_key_witness :
    ((alice_kem_main toy_world).out = (alice_kem_main toy_world_other_secret).out
      ↔ ([5, 7] : Bytes) = [5, 8]) :=
  (alice_stdout_determines_secret_key toy_world toy_world_other_secret toy_kem
    toy_kem_other_secret [5, 6] [5, 7] [5, 8] rfl rfl (fun _ _ => rfl) (fun _ _ => rfl)
    (by decide) (by decide) toy_kem_lengths_ok toy_kem_other_secret_lengths_ok
    (by decide) (by decide) (by decide) (by decide)).2.2

/-! ## What key generation writes -/

/-- C8 fails: when `secret_key.bin` cannot be opened for writing, `alice_kem` ends with
`EXIT_FAILURE` after it wrote `public_key.bin`: the store holds the public key of the run
and not its secret key. -/
theorem keygen_leaves_public_key_alone :
    toy_world_secret_denied.files "public_key.bin" = none
    ∧ (alice_kem_main toy_world_secret_denied).status = .EXIT_FAILURE
    ∧ (alice_kem_main toy_world_secret_denied).files "public_key.bin" = some [5, 6]
    ∧ (alice_kem_main toy_world_secret_denied).files "secret_key.bin" = none := by
  decide

/-- C8 as amended: a run of `alice_kem` that fails at `OQS_KEM_new`, at `keypair` or at
opening `public_key.bin` leaves every file as it was; a run in which every stage succeeds
has written both `public_key.bin` and `secret_key.bin`; a run that fails at opening
`secret_key.bin` ends with `EXIT_FAILURE`, `public_key.bin` written and every other file
as it was. -/
theorem alice_kem_writes (w : World) :
    (w.kem_new OQS_KEM_alg_ml_kem_512 = none →
      (alice_kem_main w).status = .EXIT_FAILURE ∧ (alice_kem_main w).files = w.files)
    ∧ (∀ kem, w.kem_new OQS_KEM_alg_ml_kem_512 = some kem → no_malloc_failure w →
        (kem.keypair w.coins = none →
          (alice_kem_main w).status = .EXIT_FAILURE ∧ (alice_kem_main w).files = w.files)
        ∧ (∀ pk sk, kem.keypair w.coins = some (pk, sk) →
            (w.wb_denied "public_key.bin" = true →
              (alice_kem_main w).status = .EXIT_FAILURE
              ∧ (alice_kem_main w).files = w.files)
            ∧ (w.wb_denied "public_key.bin" = false →
                w.wb_denied "secret_key.bin" = true →
              (alice_kem_main w).status = .EXIT_FAILURE
              ∧ (alice_kem_main w).files "public_key.bin"
                  = some ((fill (fresh_block w 0 kem.length_public_key) pk).take
                      kem.length_public_key)
              ∧ ∀ n, n ≠ "public_key.bin" → (alice_kem_main w).files n = w.files n)
            ∧ (w.wb_denied "public_key.bin" = false →
                w.wb_denied "secret_key.bin" = false →
              (alice_kem_main w).status = .EXIT_SUCCESS
              ∧ (alice_kem_main w).files "public_key.bin"
                  = some ((fill (fresh_block w 0 kem.length_public_key) pk).take
                      kem.length_public_key)
              ∧ (alice_kem_main w).files "secret_key.bin"
                  = some ((fill (fresh_block w 1 kem.length_secret_key) sk).take
                      kem.length_secret_key)
              ∧ ∀ n, n ≠ "public_key.bin" → n ≠ "secret_key.bin" →
                  (alice_kem_main w).files n = w.files n))) := by
  refine ⟨?_, ?_⟩
  · intro h
    simp [alice_kem_main, h]
  · intro kem hnew halloc
    have m0 := malloc_of_no_failure w halloc 0 (by decide)
    have m1 := malloc_of_no_failure w halloc 1 (by decide)
    refine ⟨?_, ?_⟩
    · intro h
      simp [alice_kem_main, hnew, m0, m1, h]
    · intro pk sk hpair
      refine ⟨?_, ?_, ?_⟩
      · intro hwb
        simp [alice_kem_main, hnew, m0, m1, hpair, write_to_file, hwb]
      · intro hwb₁ hwb₂
        simp only [alice_kem_main, hnew, m0, m1, hpair, write_to_file_ok _ _ _ _ _ hwb₁,
          write_to_file_denied _ _ _ _ _ hwb₂]
        refine ⟨trivial, by simp, ?_⟩
        intro n hn
        simp [hn]
      · intro hwb₁ hwb₂
        rw [alice_kem_main_success w kem pk sk hnew halloc hpair hwb₁ hwb₂]
        refine ⟨rfl, by simp, by simp, ?_⟩
        intro n h1 h2
        simp [h1, h2]

/-- C8 as amended, on four stand-in worlds: unknown algorithm, failed key generation,
denied secret-key file, and the run without fault. -/
theorem alice_kem_writes_witness :
    ((alice_kem_main toy_world_no_kem).status = .EXIT_FAILURE
      ∧ (alice_kem_main toy_world_no_kem).files = toy_world_no_kem.files)
    ∧ ((alice_kem_main toy_world_keypair_fails).status = .EXIT_FAILURE
      ∧ (alice_kem_main toy_world_keypair_fails).files = toy_world_keypair_fails.files)
    ∧ (alice_kem_main toy_world_secret_denied).status = .EXIT_FAILURE
    ∧ (alice_kem_main toy_world).status = .EXIT_SUCCESS :=
  ⟨(alice_kem_writes toy_world_no_kem).1 rfl,
   ((alice_kem_writes toy_world_keypair_fails).2 toy_kem_keypair_fails rfl
      (fun _ _ => rfl)).1 rfl,
   ((((alice_kem_writes toy_world_secret_denied).2 toy_kem rfl (fun _ _ => rfl)).2
      [5, 6] [5, 7] (by decide)).2.1 (by decide) (by decide)).1,
   ((((alice_kem_writes toy_world).2 toy_kem rfl (fun _ _ => rfl)).2
      [5, 6] [5, 7] (by decide)).2.2 (by decide) (by decide)).1⟩

/-! ## Release of the buffers -/

/-- C9 fails, in both halves: on the successful runs the shared secret `[8]` of `bob_kem`
and of `alice2_kem` and the secret keys of `alice2_kem` and `alice_kem` are in their
buffers, not overwritten, when `free` releases them; and when `ciphertext.bin` cannot be
opened for writing `bob_kem` ends in `exit` after the encapsulation, with no `free` at
all of the buffer that holds the shared secret. -/
theorem sensitive_buffers_freed_intact :
    toy_kem.encaps toy_world_bob.coins [3, 4] = some ([5, 3], [8])
    ∧ Event.free "shared_secret" (some [8]) ∈ (bob_kem_main toy_world_bob).trace
    ∧ Event.free "secret_key" (some [3, 5]) ∈ (alice2_kem_main toy_world_alice2).trace
    ∧ Event.free "shared_secret" (some [8]) ∈ (alice2_kem_main toy_world_alice2).trace
    ∧ Event.free "secret_key" (some [5, 7]) ∈ (alice_kem_main toy_world).trace
    ∧ (bob_kem_main toy_world_ciphertext_denied).status = .EXIT_FAILURE
    ∧ (bob_kem_main toy_world_ciphertext_denied).trace =
        [.fopen "public_key_1024.bin" .rb true, .encaps [3, 4],
         .fopen "ciphertext.bin" .wb false] := by
  decide

/-- The trace of `bob_kem` when an allocation failed. -/
theorem bob_kem_main_alloc_failure_trace (w : World) (kem : Kem)
    (hnew : w.kem_new OQS_KEM_alg_ml_kem_1024 = some kem)
    (hfail : ∃ n, n < 3 ∧ w.malloc_fails n = true) :
    (bob_kem_main w).trace =
      [.kem_free, .free "public_key" (malloc w 0 kem.length_public_key),
       .free "ciphertext" (malloc w 1 kem.length_ciphertext),
       .free "shared_secret" (malloc w 2 kem.length_shared_secret)] := by
  obtain ⟨n, hn, hfail⟩ := hfail
  have : n = 0 ∨ n = 1 ∨ n = 2 := by omega
  simp only [bob_kem_main, hnew]
  rcases this with rfl | rfl | rfl <;> simp only [malloc_of_fail _ _ _ hfail] <;>
    (split <;> first | rfl | simp_all)

/-- The trace of `alice2_kem` when an allocation failed. -/
theorem alice2_kem_main_alloc_failure_trace (w : World) (kem : Kem)
    (hnew : w.kem_new OQS_KEM_alg_ml_kem_1024 = some kem)
    (hfail : ∃ n, n < 3 ∧ w.malloc_fails n = true) :
    (alice2_kem_main w).trace =
      [.kem_free, .free "secret_key" (malloc w 0 kem.length_secret_key),
       .free "ciphertext" (malloc w 1 kem.length_ciphertext),
       .free "shared_secret" (malloc w 2 kem.length_shared_secret)] := by
  obtain ⟨n, hn, hfail⟩ := hfail
  have : n = 0 ∨ n = 1 ∨ n = 2 := by omega
  simp only [alice2_kem_main, hnew]
  rcases this with rfl | rfl | rfl <;> simp only [malloc_of_fail _ _ _ hfail] <;>
    (split <;> first | rfl | simp_all)

theorem buffer_after_store_exact (w : World) (call length : Nat) (data : Bytes)
    (h : data.length = length) : buffer_after_store w call length data = data :=
  fill_exact _ _ (by rw [fresh_block_length, h])

/-- Every `free` of `alice_kem` receives a key buffer as `OQS_KEM_keypair` left it. -/
theorem alice_kem_main_free_content (w : World) (b : String) (c : Option Bytes)
    (h : Event.free b c ∈ (alice_kem_main w).trace) :
    ∃ kem pk sk, w.kem_new OQS_KEM_alg_ml_kem_512 = some kem
      ∧ kem.keypair w.coins = some (pk, sk)
      ∧ ((b = "public_key"
            ∧ c = some (buffer_after_store w 0 kem.length_public_key pk))
          ∨ (b = "secret_key"
            ∧ c = some (buffer_after_store w 1 kem.length_secret_key sk))) := by
  revert h
  cases hnew : w.kem_new OQS_KEM_alg_ml_kem_512 with
  | none => simp [alice_kem_main, hnew]
  | some kem =>
    cases h0 : w.malloc_fails 0 <;> cases h1 : w.malloc_fails 1 <;>
      try (simp [alice_kem_main, hnew, malloc, h0, h1]; done)
    cases hpair : kem.keypair w.coins with
    | none => simp [alice_kem_main, hnew, malloc, h0, h1, hpair]
    | some p =>
      obtain ⟨pk, sk⟩ := p
      cases hwb₁ : w.wb_denied "public_key.bin" <;>
        cases hwb₂ : w.wb_denied "secret_key.bin" <;>
        simp [alice_kem_main, hnew, malloc, h0, h1, hpair, write_to_file, hwb₁, hwb₂,
          buffer_after_store]
      intro h
      exact ⟨pk, sk, ⟨rfl, rfl⟩, h⟩

/-- The paths of `alice_kem` after a successful key generation. -/
theorem alice_kem_main_paths (w : World) (kem : Kem) (pk sk : Bytes)
    (hnew : w.kem_new OQS_KEM_alg_ml_kem_512 = some kem) (halloc : no_malloc_failure w)
    (hpair : kem.keypair w.coins = some (pk, sk)) :
    (w.wb_denied "public_key.bin" = true →
      (alice_kem_main w).status = .EXIT_FAILURE
      ∧ (alice_kem_main w).trace = [.keypair, .fopen "public_key.bin" .wb false])
    ∧ (w.wb_denied "public_key.bin" = false → w.wb_denied "secret_key.bin" = true →
      (alice_kem_main w).status = .EXIT_FAILURE
      ∧ (alice_kem_main w).trace =
          [.keypair, .fopen "public_key.bin" .wb true, .fopen "secret_key.bin" .wb false])
    ∧ (w.wb_denied "public_key.bin" = false → w.wb_denied "secret_key.bin" = false →
      (alice_kem_main w).status = .EXIT_SUCCESS
      ∧ (alice_kem_main w).trace =
          [.keypair, .fopen "public_key.bin" .wb true, .fopen "secret_key.bin" .wb true,
           .free "public_key" (some (buffer_after_store w 0 kem.length_public_key pk)),
           .free "secret_key" (some (buffer_after_store w 1 kem.length_secret_key sk)),
           .kem_free]) := by
  have m0 := malloc_of_no_failure w halloc 0 (by decide)
  have m1 := malloc_of_no_failure w halloc 1 (by decide)
  refine ⟨?_, ?_, ?_⟩
  · intro hwb
    simp [alice_kem_main, hnew, m0, m1, hpair, write_to_file, hwb]
  · intro hwb₁ hwb₂
    simp [alice_kem_main, hnew, m0, m1, hpair, write_to_file, hwb₁, hwb₂]
  · intro hwb₁ hwb₂
    rw [alice_kem_main_success w kem pk sk hnew halloc hpair hwb₁ hwb₂]
    exact ⟨rfl, rfl⟩

/-- The paths of `bob_kem` once the context and the three buffers exist. -/
theorem bob_kem_main_paths (w : World) (kem : Kem)
    (hnew : w.kem_new OQS_KEM_alg_ml_kem_1024 = some kem) (halloc : no_malloc_failure w) :
    (w.files "public_key_1024.bin" = none →
      (bob_kem_main w).status = .EXIT_FAILURE
      ∧ (bob_kem_main w).trace = [.fopen "public_key_1024.bin" .rb false])
    ∧ (∀ content, w.files "public_key_1024.bin" = some content →
        (kem.encaps w.coins (buffer_after_read w 0 kem.length_public_key content) = none →
          (bob_kem_main w).status = .EXIT_FAILURE
          ∧ (bob_kem_main w).trace =
              [.fopen "public_key_1024.bin" .rb true,
               .encaps (buffer_after_read w 0 kem.length_public_key content),
               .free "public_key"
                 (some (buffer_after_read w 0 kem.length_public_key content)),
               .free "ciphertext" (some (fresh_block w 1 kem.length_ciphertext)),
               .free "shared_secret" (some (fresh_block w 2 kem.length_shared_secret)),
               .kem_free])
        ∧ (∀ ct ss,
            kem.encaps w.coins (buffer_after_read w 0 kem.length_public_key content)
              = some (ct, ss) →
            (w.wb_denied "ciphertext.bin" = true →
              (bob_kem_main w).status = .EXIT_FAILURE
              ∧ (bob_kem_main w).trace =
                  [.fopen "public_key_1024.bin" .rb true,
                   .encaps (buffer_after_read w 0 kem.length_public_key content),
                   .fopen "ciphertext.bin" .wb false])
            ∧ (w.wb_denied "ciphertext.bin" = false →
              (bob_kem_main w).status = .EXIT_SUCCESS
              ∧ (bob_kem_main w).trace =
                  [.fopen "public_key_1024.bin" .rb true,
                   .encaps (buffer_after_read w 0 kem.length_public_key content),
                   .fopen "ciphertext.bin" .wb true,
                   .free "public_key"
                     (some (buffer_after_read w 0 kem.length_public_key content)),
                   .free "ciphertext"
                     (some (buffer_after_store w 1 kem.length_ciphertext ct)),
                   .free "shared_secret"
                     (some (buffer_after_store w 2 kem.length_shared_secret ss)),
                   .kem_free]))) := by
  have m0 := malloc_of_no_failure w halloc 0 (by decide)
  have m1 := malloc_of_no_failure w halloc 1 (by decide)
  have m2 := malloc_of_no_failure w halloc 2 (by decide)
  refine ⟨?_, ?_⟩
  · intro hfile
    simp [bob_kem_main, hnew, m0, m1, m2, load_from_file, hfile]
  · intro content hfile
    simp only [buffer_after_read, buffer_after_store]
    refine ⟨?_, ?_⟩
    · intro henc
      simp [bob_kem_main, hnew, m0, m1, m2, load_from_file, hfile, henc]
    · intro ct ss henc
      refine ⟨?_, ?_⟩
      · intro hwb
        simp [bob_kem_main, hnew, m0, m1, m2, load_from_file, hfile, henc, write_to_file,
          hwb]
      · intro hwb
        rw [bob_kem_main_success w kem content ct ss hnew halloc hfile henc hwb]
        exact ⟨rfl, rfl⟩

/-- The paths of `alice2_kem` once the context and the three buffers exist. -/
theorem alice2_kem_main_paths (w : World) (kem : Kem)
    (hnew : w.kem_new OQS_KEM_alg_ml_kem_1024 = some kem) (halloc : no_malloc_failure w) :
    (w.files "secret_key_1024.bin" = none →
      (alice2_kem_main w).status = .EXIT_FAILURE
      ∧ (alice2_kem_main w).trace = [.fopen "secret_key_1024.bin" .rb false])
    ∧ (∀ sk_content, w.files "secret_key_1024.bin" = some sk_content →
        (w.files "ciphertext.bin" = none →
          (alice2_kem_main w).status = .EXIT_FAILURE
          ∧ (alice2_kem_main w).trace =
              [.fopen "secret_key_1024.bin" .rb true, .fopen "ciphertext.bin" .rb false])
        ∧ (∀ ct_content, w.files "ciphertext.bin" = some ct_content →
            (kem.decaps (buffer_after_read w 1 kem.length_ciphertext ct_content)
                (buffer_after_read w 0 kem.length_secret_key sk_content) = none →
              (alice2_kem_main w).status = .EXIT_FAILURE
              ∧ (alice2_kem_main w).trace =
                  [.fopen "secret_key_1024.bin" .rb true, .fopen "ciphertext.bin" .rb true,
                   .decaps (buffer_after_read w 1 kem.length_ciphertext ct_content)
                     (buffer_after_read w 0 kem.length_secret_key sk_content),
                   .free "secret_key"
                     (some (buffer_after_read w 0 kem.length_secret_key sk_content)),
                   .free "ciphertext"
                     (some (buffer_after_read w 1 kem.length_ciphertext ct_content)),
                   .free "shared_secret" (some (fresh_block w 2 kem.length_shared_secret)),
                   .kem_free])
            ∧ (∀ ss,
                kem.decaps (buffer_after_read w 1 kem.length_ciphertext ct_content)
                  (buffer_after_read w 0 kem.length_secret_key sk_content) = some ss →
                (alice2_kem_main w).status = .EXIT_SUCCESS
                ∧ (alice2_kem_main w).trace =
                    [.fopen "secret_key_1024.bin" .rb true,
                     .fopen "ciphertext.bin" .rb true,
                     .decaps (buffer_after_read w 1 kem.length_ciphertext ct_content)
                       (buffer_after_read w 0 kem.length_secret_key sk_content),
                     .free "secret_key"
                       (some (buffer_after_read w 0 kem.length_secret_key sk_content)),
                     .free "ciphertext"
                       (some (buffer_after_read w 1 kem.length_ciphertext ct_content)),
                     .free "shared_secret"
                       (some (buffer_after_store w 2 kem.length_shared_secret ss)),
                     .kem_free]))) := by
  have m0 := malloc_of_no_failure w halloc 0 (by decide)
  have m1 := malloc_of_no_failure w halloc 1 (by decide)
  have m2 := malloc_of_no_failure w halloc 2 (by decide)
  refine ⟨?_, ?_⟩
  · intro hsk
    simp [alice2_kem_main, hnew, m0, m1, m2, load_from_file, hsk]
  · intro sk_content hsk
    simp only [buffer_after_read, buffer_after_store]
    refine ⟨?_, ?_⟩
    · intro hct
      simp [alice2_kem_main, hnew, m0, m1, m2, load_from_file, hsk, hct]
    · intro ct_content hct
      refine ⟨?_, ?_⟩
      · intro hdec
        simp [alice2_kem_main, hnew, m0, m1, m2, load_from_file, hsk, hct, hdec]
      · intro ss hdec
        rw [alice2_kem_main_success w kem sk_content ct_content ss hnew halloc hsk hct hdec]
        exact ⟨rfl, rfl⟩

/-! ## A zero status needs every stage -/

/-- A run of `bob_kem` returns `EXIT_SUCCESS` only when every stage succeeded; otherwise
it ends with `EXIT_FAILURE`. -/
theorem bob_kem_main_success_only (w : World) :
    ((bob_kem_main w).status = .EXIT_SUCCESS →
      ∃ kem content ct ss, w.kem_new OQS_KEM_alg_ml_kem_1024 = some kem
        ∧ no_malloc_failure w
        ∧ w.files "public_key_1024.bin" = some content
        ∧ kem.encaps w.coins
            (fread (fresh_block w 0 kem.length_public_key) kem.length_public_key content)
              = some (ct, ss)
        ∧ w.wb_denied "ciphertext.bin" = false)
    ∧ ((bob_kem_main w).status = .EXIT_SUCCESS ∨ (bob_kem_main w).status = .EXIT_FAILURE) := by
  cases hnew : w.kem_new OQS_KEM_alg_ml_kem_1024 with
  | none => simp [bob_kem_main, hnew]
  | some kem =>
    cases h0 : w.malloc_fails 0 <;> cases h1 : w.malloc_fails 1 <;>
      cases h2 : w.malloc_fails 2 <;>
      try (simp [bob_kem_main, hnew, malloc, h0, h1, h2]; done)
    cases hfile : w.files "public_key_1024.bin" with
    | none => simp [bob_kem_main, hnew, malloc, h0, h1, h2, load_from_file, hfile]
    | some content =>
      cases henc : kem.encaps w.coins
          (fread (fresh_block w 0 kem.length_public_key) kem.length_public_key content) with
      | none => simp [bob_kem_main, hnew, malloc, h0, h1, h2, load_from_file, hfile, henc]
      | some p =>
        obtain ⟨ct, ss⟩ := p
        cases hwb : w.wb_denied "ciphertext.bin" with
        | true =>
          simp [bob_kem_main, hnew, malloc, h0, h1, h2, load_from_file, hfile, henc,
            write_to_file, hwb]
        | false =>
          have halloc : no_malloc_failure w := by
            intro n hn
            have : n = 0 ∨ n = 1 ∨ n = 2 := by omega
            rcases this with rfl | rfl | rfl <;> assumption
          refine ⟨fun _ => ⟨kem, content, ct, ss, rfl, halloc, rfl, henc, rfl⟩, Or.inl ?_⟩
          rw [bob_kem_main_success w kem content ct ss hnew halloc hfile henc hwb]

/-- A run of `alice2_kem` returns `EXIT_SUCCESS` only when every stage succeeded; otherwise
it ends with `EXIT_FAILURE`. -/
theorem alice2_kem_main_success_only (w : World) :
    ((alice2_kem_main w).status = .EXIT_SUCCESS →
      ∃ kem sk_content ct_content ss, w.kem_new OQS_KEM_alg_ml_kem_1024 = some kem
        ∧ no_malloc_failure w
        ∧ w.files "secret_key_1024.bin" = some sk_content
        ∧ w.files "ciphertext.bin" = some ct_content
        ∧ kem.decaps
            (fread (fresh_block w 1 kem.length_ciphertext) kem.length_ciphertext ct_content)
            (fread (fresh_block w 0 kem.length_secret_key) kem.length_secret_key sk_content)
              = some ss)
    ∧ ((alice2_kem_main w).status = .EXIT_SUCCESS
        ∨ (alice2_kem_main w).status = .EXIT_FAILURE) := by
  cases hnew : w.kem_new OQS_KEM_alg_ml_kem_1024 with
  | none => simp [alice2_kem_main, hnew]
  | some kem =>
    cases h0 : w.malloc_fails 0 <;> cases h1 : w.malloc_fails 1 <;>
      cases h2 : w.malloc_fails 2 <;>
      try (simp [alice2_kem_main, hnew, malloc, h0, h1, h2]; done)
    cases hsk : w.files "secret_key_1024.bin" with
    | none => simp [alice2_kem_main, hnew, malloc, h0, h1, h2, load_from_file, hsk]
    | some sk_content =>
      cases hct : w.files "ciphertext.bin" with
      | none => simp [alice2_kem_main, hnew, malloc, h0, h1, h2, load_from_file, hsk, hct]
      | some ct_content =>
        cases hdec : kem.decaps
            (fread (fresh_block w 1 kem.length_ciphertext) kem.length_ciphertext ct_content)
            (fread (fresh_block w 0 kem.length_secret_key) kem.length_secret_key sk_content)
          with
        | none =>
          simp [alice2_kem_main, hnew, malloc, h0, h1, h2, load_from_file, hsk, hct, hdec]
        | some ss =>
          have halloc : no_malloc_failure w := by
            intro n hn
            have : n = 0 ∨ n = 1 ∨ n = 2 := by omega
            rcases this with rfl | rfl | rfl <;> assumption
          refine ⟨fun _ => ⟨kem, sk_content, ct_content, ss, rfl, halloc, rfl, rfl, hdec⟩,
            Or.inl ?_⟩
          rw [alice2_kem_main_success w kem sk_content ct_content ss hnew halloc hsk hct hdec]

/-- A run of `alice_kem` returns `EXIT_SUCCESS` only when every stage succeeded, and ends
with `EXIT_FAILURE` otherwise unless one of its two allocations failed. -/
theorem alice_kem_main_success_only (w : World) :
    ((alice_kem_main w).status = .EXIT_SUCCESS →
      ∃ kem pk sk, w.kem_new OQS_KEM_alg_ml_kem_512 = some kem
        ∧ w.malloc_fails 0 = false ∧ w.malloc_fails 1 = false
        ∧ kem.keypair w.coins = some (pk, sk)
        ∧ w.wb_denied "public_key.bin" = false ∧ w.wb_denied "secret_key.bin" = false)
    ∧ ((alice_kem_main w).status = .undefined_behaviour ↔
        (w.kem_new OQS_KEM_alg_ml_kem_512).isSome = true
          ∧ (w.malloc_fails 0 = true ∨ w.malloc_fails 1 = true)) := by
  cases hnew : w.kem_new OQS_KEM_alg_ml_kem_512 with
  | none => simp [alice_kem_main, hnew]
  | some kem =>
    cases h0 : w.malloc_fails 0 <;> cases h1 : w.malloc_fails 1 <;>
      try (simp [alice_kem_main, hnew, malloc, h0, h1]; done)
    cases hpair : kem.keypair w.coins with
    | none => simp [alice_kem_main, hnew, malloc, h0, h1, hpair]
    | some p =>
      obtain ⟨pk, sk⟩ := p
      cases hwb₁ : w.wb_denied "public_key.bin" <;>
        cases hwb₂ : w.wb_denied "secret_key.bin" <;>
        simp [alice_kem_main, hnew, malloc, h0, h1, hpair, write_to_file, hwb₁, hwb₂]

/-! ## No buffer is overwritten before its release -/

/-- C9 as amended: no role overwrites a buffer before releasing it. Every `free` of
`alice_kem` receives a key buffer as the key generation left it. On each path of
`bob_kem` and `alice2_kem`, and on each path of `alice_kem` after a successful key
generation, the calls are exactly the ones listed: when every stage succeeds each buffer
is released with what was loaded or stored still in it (the secret key, the shared
secret: the stored bytes themselves when the primitive keeps the advertised lengths);
when an allocation or the primitive fails, `bob_kem` and `alice2_kem` release their three
buffers as they are (the loaded secret key included); and on the paths that end in `exit`
because a file cannot be opened there is no `free` at all. -/
theorem buffers_freed_never_overwritten (w : World) (kem : Kem) :
    (∀ b c, Event.free b c ∈ (alice_kem_main w).trace →
      ∃ kem pk sk, w.kem_new OQS_KEM_alg_ml_kem_512 = some kem
        ∧ kem.keypair w.coins = some (pk, sk)
        ∧ ((b = "public_key"
              ∧ c = some (buffer_after_store w 0 kem.length_public_key pk))
            ∨ (b = "secret_key"
              ∧ c = some (buffer_after_store w 1 kem.length_secret_key sk))))
    ∧ (∀ pk sk, w.kem_new OQS_KEM_alg_ml_kem_512 = some kem → no_malloc_failure w →
        kem.keypair w.coins = some (pk, sk) →
        (w.wb_denied "public_key.bin" = true →
          (alice_kem_main w).status = .EXIT_FAILURE
          ∧ (alice_kem_main w).trace = [.keypair, .fopen "public_key.bin" .wb false])
        ∧ (w.wb_denied "public_key.bin" = false → w.wb_denied "secret_key.bin" = true →
          (alice_kem_main w).status = .EXIT_FAILURE
          ∧ (alice_kem_main w).trace =
              [.keypair, .fopen "public_key.bin" .wb true,
               .fopen "secret_key.bin" .wb false])
        ∧ (w.wb_denied "public_key.bin" = false → w.wb_denied "secret_key.bin" = false →
          (alice_kem_main w).status = .EXIT_SUCCESS
          ∧ (alice_kem_main w).trace =
              [.keypair, .fopen "public_key.bin" .wb true, .fopen "secret_key.bin" .wb true,
               .free "public_key" (some (buffer_after_store w 0 kem.length_public_key pk)),
               .free "secret_key" (some (buffer_after_store w 1 kem.length_secret_key sk)),
               .kem_free])
        ∧ (kem.lengths_ok →
            buffer_after_store w 0 kem.length_public_key pk = pk
            ∧ buffer_after_store w 1 kem.length_secret_key sk = sk))
    ∧ (w.kem_new OQS_KEM_alg_ml_kem_1024 = some kem →
        (∃ n, n < 3 ∧ w.malloc_fails n = true) →
        ((bob_kem_main w).status = .EXIT_FAILURE
          ∧ (bob_kem_main w).trace =
              [.kem_free, .free "public_key" (malloc w 0 kem.length_public_key),
               .free "ciphertext" (malloc w 1 kem.length_ciphertext),
               .free "shared_secret" (malloc w 2 kem.length_shared_secret)])
        ∧ ((alice2_kem_main w).status = .EXIT_FAILURE
          ∧ (alice2_kem_main w).trace =
              [.kem_free, .free "secret_key" (malloc w 0 kem.length_secret_key),
               .free "ciphertext" (malloc w 1 kem.length_ciphertext),
               .free "shared_secret" (malloc w 2 kem.length_shared_secret)]))
    ∧ (w.kem_new OQS_KEM_alg_ml_kem_1024 = some kem → no_malloc_failure w →
        (w.files "public_key_1024.bin" = none →
          (bob_kem_main w).status = .EXIT_FAILURE
          ∧ (bob_kem_main w).trace = [.fopen "public_key_1024.bin" .rb false])
        ∧ (∀ content, w.files "public_key_1024.bin" = some content →
            (kem.encaps w.coins (buffer_after_read w 0 kem.length_public_key content)
                = none →
              (bob_kem_main w).status = .EXIT_FAILURE
              ∧ (bob_kem_main w).trace =
                  [.fopen "public_key_1024.bin" .rb true,
                   .encaps (buffer_after_read w 0 kem.length_public_key content),
                   .free "public_key"
                     (some (buffer_after_read w 0 kem.length_public_key content)),
                   .free "ciphertext" (some (fresh_block w 1 kem.length_ciphertext)),
                   .free "shared_secret" (some (fresh_block w 2 kem.length_shared_secret)),
                   .kem_free])
            ∧ (∀ ct ss,
                kem.encaps w.coins (buffer_after_read w 0 kem.length_public_key content)
                  = some (ct, ss) →
                (w.wb_denied "ciphertext.bin" = true →
                  (bob_kem_main w).status = .EXIT_FAILURE
                  ∧ (bob_kem_main w).trace =
                      [.fopen "public_key_1024.bin" .rb true,
                       .encaps (buffer_after_read w 0 kem.length_public_key content),
                       .fopen "ciphertext.bin" .wb false])
                ∧ (w.wb_denied "ciphertext.bin" = false →
                  (bob_kem_main w).status = .EXIT_SUCCESS
                  ∧ (bob_kem_main w).trace =
                      [.fopen "public_key_1024.bin" .rb true,
                       .encaps (buffer_after_read w 0 kem.length_public_key content),
                       .fopen "ciphertext.bin" .wb true,
                       .free "public_key"
                         (some (buffer_after_read w 0 kem.length_public_key content)),
                       .free "ciphertext"
                         (some (buffer_after_store w 1 kem.length_ciphertext ct)),
                       .free "shared_secret"
                         (some (buffer_after_store w 2 kem.length_shared_secret ss)),
                       .kem_free])
                ∧ (kem.lengths_ok →
                    buffer_after_store w 1 kem.length_ciphertext ct = ct
                    ∧ buffer_after_store w 2 kem.length_shared_secret ss = ss))))
    ∧ (w.kem_new OQS_KEM_alg_ml_kem_1024 = some kem → no_malloc_failure w →
        (w.files "secret_key_1024.bin" = none →
          (alice2_kem_main w).status = .EXIT_FAILURE
          ∧ (alice2_kem_main w).trace = [.fopen "secret_key_1024.bin" .rb false])
        ∧ (∀ sk_content, w.files "secret_key_1024.bin" = some sk_content →
            (sk_content.length = kem.length_secret_key →
              buffer_after_read w 0 kem.length_secret_key sk_content = sk_content)
            ∧ (w.files "ciphertext.bin" = none →
              (alice2_kem_main w).status = .EXIT_FAILURE
              ∧ (alice2_kem_main w).trace =
                  [.fopen "secret_key_1024.bin" .rb true,
                   .fopen "ciphertext.bin" .rb false])
            ∧ (∀ ct_content, w.files "ciphertext.bin" = some ct_content →
                (kem.decaps (buffer_after_read w 1 kem.length_ciphertext ct_content)
                    (buffer_after_read w 0 kem.length_secret_key sk_content) = none →
                  (alice2_kem_main w).status = .EXIT_FAILURE
                  ∧ (alice2_kem_main w).trace =
                      [.fopen "secret_key_1024.bin" .rb true,
                       .fopen "ciphertext.bin" .rb true,
                       .decaps (buffer_after_read w 1 kem.length_ciphertext ct_content)
                         (buffer_after_read w 0 kem.length_secret_key sk_content),
                       .free "secret_key"
                         (some (buffer_after_read w 0 kem.length_secret_key sk_content)),
                       .free "ciphertext"
                         (some (buffer_after_read w 1 kem.length_ciphertext ct_content)),
                       .free "shared_secret"
                         (some (fresh_block w 2 kem.length_shared_secret)),
                       .kem_free])
                ∧ (∀ ss,
                    kem.decaps (buffer_after_read w 1 kem.length_ciphertext ct_content)
                      (buffer_after_read w 0 kem.length_secret_key sk_content) = some ss →
                    (alice2_kem_main w).status = .EXIT_SUCCESS
                    ∧ (alice2_kem_main w).trace =
                        [.fopen "secret_key_1024.bin" .rb true,
                         .fopen "ciphertext.bin" .rb true,
                         .decaps (buffer_after_read w 1 kem.length_ciphertext ct_content)
                           (buffer_after_read w 0 kem.length_secret_key sk_content),
                         .free "secret_key"
                           (some (buffer_after_read w 0 kem.length_secret_key sk_content)),
                         .free "ciphertext"
                           (some (buffer_after_read w 1 kem.length_ciphertext ct_content)),
                         .free "shared_secret"
                           (some (buffer_after_store w 2 kem.length_shared_secret ss)),
                         .kem_free]
                    ∧ (kem.lengths_ok →
                        buffer_after_store w 2 kem.length_shared_secret ss = ss))))) := by
  refine ⟨alice_kem_main_free_content w, ?_, ?_, ?_, ?_⟩
  · intro pk sk hnew halloc hpair
    obtain ⟨h1, h2, h3⟩ := alice_kem_main_paths w kem pk sk hnew halloc hpair
    refine ⟨h1, h2, h3, ?_⟩
    intro hlen
    obtain ⟨hpkl, hskl⟩ := hlen.1 _ pk sk hpair
    exact ⟨buffer_after_store_exact w 0 _ pk hpkl, buffer_after_store_exact w 1 _ sk hskl⟩
  · intro hnew hfail
    refine ⟨⟨?_, bob_kem_main_alloc_failure_trace w kem hnew hfail⟩,
      ⟨?_, alice2_kem_main_alloc_failure_trace w kem hnew hfail⟩⟩
    · obtain ⟨hs, hor⟩ := bob_kem_main_success_only w
      rcases hor with hok | hfailure
      · obtain ⟨_, _, _, _, _, halloc, _⟩ := hs hok
        obtain ⟨n, hn, hf⟩ := hfail
        rw [halloc n hn] at hf
        cases hf
      · exact hfailure
    · obtain ⟨hs, hor⟩ := alice2_kem_main_success_only w
      rcases hor with hok | hfailure
      · obtain ⟨_, _, _, _, _, halloc, _⟩ := hs hok
        obtain ⟨n, hn, hf⟩ := hfail
        rw [halloc n hn] at hf
        cases hf
      · exact hfailure
  · intro hnew halloc
    obtain ⟨h1, h2⟩ := bob_kem_main_paths w kem hnew halloc
    refine ⟨h1, ?_⟩
    intro content hfile
    obtain ⟨h3, h4⟩ := h2 content hfile
    refine ⟨h3, ?_⟩
    intro ct ss henc
    obtain ⟨h5, h6⟩ := h4 ct ss henc
    refine ⟨h5, h6, ?_⟩
    intro hlen
    obtain ⟨hctl, hssl⟩ := hlen.2.1 _ _ ct ss henc
    exact ⟨buffer_after_store_exact w 1 _ ct hctl, buffer_after_store_exact w 2 _ ss hssl⟩
  · intro hnew halloc
    obtain ⟨h1, h2⟩ := alice2_kem_main_paths w kem hnew halloc
    refine ⟨h1, ?_⟩
    intro sk_content hsk
    obtain ⟨h3, h4⟩ := h2 sk_content hsk
    refine ⟨?_, h3, ?_⟩
    · intro hl
      exact fread_exact _ _ _ (fresh_block_length _ _ _) hl
    · intro ct_content hct
      obtain ⟨h5, h6⟩ := h4 ct_content hct
      refine ⟨h5, ?_⟩
      intro ss hdec
      obtain ⟨h7, h8⟩ := h6 ss hdec
      refine ⟨h7, h8, ?_⟩
      intro hlen
      exact buffer_after_store_exact w 2 _ ss (hlen.2.2 _ _ ss hdec)


/-- C9 as amended, on the stand-in worlds: the successful runs of the three roles, a
failed allocation, a failed decapsulation, and `bob_kem` ending in `exit` with the shared
secret in its buffer. -/
theorem buffers_freed_never_overwritten_witness :
    ((alice_kem_main toy_world).status = .EXIT_SUCCESS
      ∧ (alice_kem_main toy_world).trace =
          [.keypair, .fopen "public_key.bin" .wb true, .fopen "secret_key.bin" .wb true,
           .free "public_key" (some [5, 6]), .free "secret_key" (some [5, 7]), .kem_free])
    ∧ ((bob_kem_main toy_world_bob).status = .EXIT_SUCCESS
      ∧ (bob_kem_main toy_world_bob).trace =
          [.fopen "public_key_1024.bin" .rb true, .encaps [3, 4],
           .fopen "ciphertext.bin" .wb true, .free "public_key" (some [3, 4]),
           .free "ciphertext" (some [5, 3]), .free "shared_secret" (some [8]), .kem_free])
    ∧ ((alice2_kem_main toy_world_alice2).status = .EXIT_SUCCESS
      ∧ (alice2_kem_main toy_world_alice2).trace =
          [.fopen "secret_key_1024.bin" .rb true, .fopen "ciphertext.bin" .rb true,
           .decaps [5, 3] [3, 5], .free "secret_key" (some [3, 5]),
           .free "ciphertext" (some [5, 3]), .free "shared_secret" (some [8]), .kem_free]
      ∧ (toy_kem.lengths_ok →
          buffer_after_store toy_world_alice2 2 toy_kem.length_shared_secret [8] = [8]))
    ∧ ((bob_kem_main toy_world_bob_malloc_null).status = .EXIT_FAILURE
      ∧ (bob_kem_main toy_world_bob_malloc_null).trace =
          [.kem_free, .free "public_key" (some [170, 170]),
           .free "ciphertext" (some [170, 170]), .free "shared_secret" none])
    ∧ ((alice2_kem_main toy_world_decaps_fails).status = .EXIT_FAILURE
      ∧ (alice2_kem_main toy_world_decaps_fails).trace =
          [.fopen "secret_key_1024.bin" .rb true, .fopen "ciphertext.bin" .rb true,
           .decaps [5, 3] [3, 5], .free "secret_key" (some [3, 5]),
           .free "ciphertext" (some [5, 3]), .free "shared_secret" (some [170]),
           .kem_free])
    ∧ ((bob_kem_main toy_world_ciphertext_denied).status = .EXIT_FAILURE
      ∧ (bob_kem_main toy_world_ciphertext_denied).trace =
          [.fopen "public_key_1024.bin" .rb true, .encaps [3, 4],
           .fopen "ciphertext.bin" .wb false]) :=
  ⟨((buffers_freed_never_overwritten toy_world toy_kem).2.1 [5, 6] [5, 7] rfl
      (fun _ _ => rfl) (by decide)).2.2.1 (by decide) (by decide),
   ((((buffers_freed_never_overwritten toy_world_bob toy_kem).2.2.2.1 rfl
      (fun _ _ => rfl)).2 [3, 4] (by decide)).2 [5, 3] [8] (by decide)).2.1 (by decide),
   ((((buffers_freed_never_overwritten toy_world_alice2 toy_kem).2.2.2.2 rfl
      (fun _ _ => rfl)).2 [3, 5] (by decide)).2.2 [5, 3] (by decide)).2 [8] (by decide),
   ((buffers_freed_never_overwritten toy_world_bob_malloc_null toy_kem).2.2.1 rfl
      ⟨2, by decide, rfl⟩).1,
   ((((buffers_freed_never_overwritten toy_world_decaps_fails toy_kem_decaps_fails).2.2.2.2
      rfl (fun _ _ => rfl)).2 [3, 5] (by decide)).2.2 [5, 3] (by decide)).1 (by decide),
   ((((buffers_freed_never_overwritten toy_world_ciphertext_denied toy_kem).2.2.2.1 rfl
      (fun _ _ => rfl)).2 [3, 4] (by decide)).2 [5, 3] [8] (by decide)).1 (by decide)⟩

end ClassPQC
